import Mathlib

/-! simulatorMapping: the exploration loop of `simulator.cc` and `saveMap`

A shallow embedding of

* `src/exe/simulator.cc`, `main`: the seeding of `points_seen` (line 38), the
  body of the do-while loop that removes the already seen points from the query
  result and appends the rest to `points_seen` (lines 47-65), the `switch` on the
  key (lines 78-109) and the loop itself (lines 45-111);
* `src/exe/run_model_on_orb_slam.cc`, `saveMap` (lines 46-93) and the camera helpers
  `applyUpModelCam` to `applyPitchRotationToModelCam` (lines 332-422);
* `src/exe/run_model_with_icp.cc`, `inverseTransformPoint` (lines 94-97) and
  `convert_points` (lines 99-106);
* `src/exe/take_frame_images.cc`, `read_matrix_4d_from_csv` (lines 28-56);
* the session and the visibility query of the spec, for the parts whose code is missing.

Numbers: the C++ `double` and `float` values are kept abstract (a type parameter).
`operator==` on them is the `==` of the type, of which nothing is assumed in the
definitions; a theorem stated for a type with decidable equality is about the numbers
on which `==` is equality (every `double` but NaN and the two zeros), and `IeeeDouble`
adds the NaN. The theorems about `saveMap` use no property of the number types at all.
-/

namespace SimulatorMapping

/-! ## Data model of `simulator.cc` -/

/-- The OpenCV template `cv::Point3_<_Tp>`; `cv::Point3d` is its instance at `double`. -/
structure Point3_ (Tp : Type) where
  x : Tp
  y : Tp
  z : Tp
deriving DecidableEq, Repr

/-- The `operator==` of `cv::Point3_`: the three coordinates are compared in turn with the
`==` of the number type, which need not be reflexive (that of `double` is not, on NaN). -/
def Point3_.eq {Tp : Type} [BEq Tp] (a b : Point3_ Tp) : Bool :=
  (a.x == b.x) && (a.y == b.y) && (a.z == b.z)

/-- A `double` as far as its `==` tells values apart: the NaN, or a number (the integers
stand for the numbers). -/
inductive IeeeDouble where
  | nan
  | num (v : Int)
deriving Repr

/-- The `==` of `double`: false as soon as one side is the NaN, equality of the numbers
otherwise. -/
def IeeeDouble.eq : IeeeDouble → IeeeDouble → Bool
  | IeeeDouble.num a, IeeeDouble.num b => decide (a = b)
  | _, _ => false

instance : BEq IeeeDouble := ⟨IeeeDouble.eq⟩

/-- The test `std::find(points_seen.begin(), points_seen.end(), value) != points_seen.end()`
of line 52: walks the vector from the front and stops at the first element that
compares equal to `value`. -/
def found {Tp : Type} [BEq Tp] : List (Point3_ Tp) → Point3_ Tp → Bool
  | [], _ => false
  | a :: rest, value => if a.eq value then true else found rest value

/-- The iterator loop of lines 50-60 over `new_points_seen`. The vector is split at
the iterator `it`: `front` holds the elements before `it`, the last argument the
elements from `it` to `end()`. `erase(it)` drops the element under the iterator and
leaves the iterator on its successor; `++it` moves the element to the front part.
The loop ends when `it` reaches `end()`, and the vector is then `front`. -/
def eraseLoop {Tp : Type} [BEq Tp] (points_seen : List (Point3_ Tp)) :
    List (Point3_ Tp) → List (Point3_ Tp) → List (Point3_ Tp)
  | front, [] => front
  | front, p :: rest =>
    if found points_seen p then eraseLoop points_seen front rest
    else eraseLoop points_seen (front ++ [p]) rest

/-- What one pass through lines 47-65 leaves behind. -/
structure StepResult (Tp : Type) where
  /-- The vector `new_points_seen` after the erase loop. -/
  new_points_seen : List (Point3_ Tp)
  /-- The vector `points_seen` after the `insert` of line 64. -/
  points_seen : List (Point3_ Tp)
  /-- The number printed after `new: ` (line 63). -/
  printed_new : Nat
  /-- The number printed after `total: ` (line 65). -/
  printed_total : Nat
deriving DecidableEq, Repr

/-- Lines 49-65 of the loop body: `query` is the vector that `getPointsFromPos`
returned on line 47 for the current pose. The already seen points are erased from
it, its size is printed, it is inserted at the end of `points_seen`, and the size of
`points_seen` is printed. -/
def accumulate {Tp : Type} [BEq Tp] (points_seen query : List (Point3_ Tp)) :
    StepResult Tp :=
  let new_points_seen := eraseLoop points_seen [] query
  let points_seen' := points_seen ++ new_points_seen
  { new_points_seen := new_points_seen
    points_seen := points_seen'
    printed_new := new_points_seen.length
    printed_total := points_seen'.length }

/-- The vector `points_seen` after the loop body has run once for each query result
of `queries`, in order, starting from `points_seen`. -/
def runSteps {Tp : Type} [BEq Tp] (points_seen : List (Point3_ Tp)) :
    List (List (Point3_ Tp)) → List (Point3_ Tp)
  | [] => points_seen
  | query :: later => runSteps (accumulate points_seen query).points_seen later

/-- The local variables of `main` that the loop reads and writes. -/
structure SimState (Tp : Type) where
  points_seen : List (Point3_ Tp)
  current_position : Point3_ Tp
  current_yaw : Tp
  current_pitch : Tp
  current_roll : Tp
deriving DecidableEq, Repr

/-- Lines 38-41 of `main`: `points_seen` is seeded with the result of the query at the
start pose, and the current pose is the start pose. `getPointsFromPos` stands for
`Auxiliary::getPointsFromPos` with the cloud file fixed; its body is not part of
these sources and it is taken as a parameter. -/
def mainInit {Tp : Type}
    (getPointsFromPos : Point3_ Tp → Tp → Tp → Tp → List (Point3_ Tp))
    (start_position : Point3_ Tp) (yaw pitch roll : Tp) : SimState Tp :=
  { points_seen := getPointsFromPos start_position yaw pitch roll
    current_position := start_position
    current_yaw := yaw
    current_pitch := pitch
    current_roll := roll }

/-- Lines 47-65 on the state of `main`: the query at the current pose followed by
`accumulate`. The pose is left as it is. -/
def loopAccumulate {Tp : Type} [BEq Tp]
    (getPointsFromPos : Point3_ Tp → Tp → Tp → Tp → List (Point3_ Tp))
    (st : SimState Tp) : StepResult Tp × SimState Tp :=
  let r := accumulate st.points_seen
    (getPointsFromPos st.current_position st.current_yaw st.current_pitch st.current_roll)
  (r, { st with points_seen := r.points_seen })

/-- A landmark of the cloud with an identity of its own (its row in the cloud file).
`getPointsFromPos` hands `simulator.cc` the coordinates only. -/
structure Landmark (Tp : Type) where
  id : Nat
  position : Point3_ Tp
deriving DecidableEq, Repr

/-- Lines 78-109 of `main`: the `switch` on the key just read. `rotateScale` and
`movingScale` are the two settings read on lines 74-75; `cos` and `sin` are the functions
of `<cmath>`, taken as parameters. A key that matches no `case` changes nothing. -/
def keySwitch {Tp : Type} [Ring Tp] (cos sin : Tp → Tp) (rotateScale movingScale : Tp)
    (ch : Char) (st : SimState Tp) : SimState Tp :=
  if ch = 'a' then { st with current_yaw := st.current_yaw - rotateScale }
  else if ch = 'd' then { st with current_yaw := st.current_yaw + rotateScale }
  else if ch = 'w' then { st with current_pitch := st.current_pitch + rotateScale }
  else if ch = 's' then { st with current_pitch := st.current_pitch - rotateScale }
  else if ch = 'i' then
    { st with current_position :=
        { x := st.current_position.x - movingScale * cos st.current_pitch * sin st.current_yaw
          y := st.current_position.y + movingScale * cos st.current_pitch * cos st.current_yaw
          z := st.current_position.z - movingScale * sin st.current_pitch } }
  else if ch = 'k' then
    { st with current_position :=
        { x := st.current_position.x + movingScale * cos st.current_pitch * sin st.current_yaw
          y := st.current_position.y - movingScale * cos st.current_pitch * cos st.current_yaw
          z := st.current_position.z + movingScale * sin st.current_pitch } }
  else if ch = 'j' then
    { st with current_position :=
        { x := st.current_position.x + movingScale * cos st.current_yaw
          y := st.current_position.y + movingScale * sin st.current_yaw
          z := st.current_position.z } }
  else if ch = 'l' then
    { st with current_position :=
        { x := st.current_position.x - movingScale * cos st.current_yaw
          y := st.current_position.y - movingScale * sin st.current_yaw
          z := st.current_position.z } }
  else st

/-- The key `27` (escape) that the condition of the do-while loop tests on line 111. -/
def escapeKey : Char := Char.ofNat 27

/-- The pose held in the state of `main`. -/
def SimState.pose {Tp : Type} (st : SimState Tp) : Point3_ Tp × Tp × Tp × Tp :=
  (st.current_position, st.current_yaw, st.current_pitch, st.current_roll)

/-- What a run of the do-while loop of lines 45-111 has done on a given input. -/
structure LoopRun (Tp : Type) where
  /-- The passes through lines 47-65, in order: the state each pass started from and
  what the pass produced. -/
  passes : List (SimState Tp × StepResult Tp)
  /-- The state when the loop was left, or when the input ran out. -/
  final : SimState Tp
  /-- Whether the loop was left (`ch != 27` found false). -/
  ended : Bool
deriving DecidableEq, Repr

/-- The do-while loop of lines 45-111 on the keys that `std::cin.get()` delivers, in
order. Each turn runs lines 47-65, reads one key, runs the `switch` and tests
`ch != 27`. When the keys run out the loop has made its pass and waits on line 72. -/
def mainLoop {Tp : Type} [Ring Tp] [BEq Tp]
    (getPointsFromPos : Point3_ Tp → Tp → Tp → Tp → List (Point3_ Tp))
    (cos sin : Tp → Tp) (rotateScale movingScale : Tp) :
    SimState Tp → List Char → LoopRun Tp
  | st, [] =>
    { passes := [(st, (loopAccumulate getPointsFromPos st).1)]
      final := (loopAccumulate getPointsFromPos st).2
      ended := false }
  | st, ch :: later =>
    let pass := loopAccumulate getPointsFromPos st
    let st' := keySwitch cos sin rotateScale movingScale ch pass.2
    if ch = escapeKey then { passes := [(st, pass.1)], final := st', ended := true }
    else
      let run := mainLoop getPointsFromPos cos sin rotateScale movingScale st' later
      { run with passes := (st, pass.1) :: run.passes }

/-- The state after the `switch` has been run for each key of `keys`, in order. -/
def applyKeys {Tp : Type} [Ring Tp] (cos sin : Tp → Tp) (rotateScale movingScale : Tp)
    (st : SimState Tp) (keys : List Char) : SimState Tp :=
  keys.foldl (fun s ch => keySwitch cos sin rotateScale movingScale ch s) st

/-! ## The session of the spec

The class `Simulator` of `simulator.h` declares `FinishScan` and `DoReset`; their bodies
are not part of these sources. -/

/-- The three states that the spec gives a session. -/
inductive SessionPhase where
  | Idle
  | Active
  | Finished
deriving DecidableEq, Repr

/-- The usage error of the spec. -/
inductive SessionError where
  | SessionClosed
deriving DecidableEq, Repr

/-- A session of the spec: its state and its seen-set. -/
structure Session (Tp : Type) where
  phase : SessionPhase
  seenSet : List (Point3_ Tp)
deriving DecidableEq, Repr

/-- Modelled from the spec: `Step` of the Exploration Accumulator (section 4.4), whose
code (the bodies of the class `Simulator`) is missing. On a `Finished` session the step
is rejected with `SessionClosed` and the session is left as it is; otherwise the session
is `Active`, `newlyVisible` is the query result without the seen-set, computed by the
`accumulate` of `simulator.cc`, and the seen-set is joined with it. The result is the
answer to the caller together with the session after the call. -/
def Session.Step {Tp : Type} [BEq Tp] (s : Session Tp) (query : List (Point3_ Tp)) :
    Except SessionError (List (Point3_ Tp) × List (Point3_ Tp)) × Session Tp :=
  match s.phase with
  | SessionPhase.Finished => (Except.error SessionError.SessionClosed, s)
  | _ =>
    let r := accumulate s.seenSet query
    (Except.ok (r.new_points_seen, r.points_seen),
      { phase := SessionPhase.Active, seenSet := r.points_seen })

/-- Modelled from the spec: the `FinishScan` signal (section 4.4), whose code is missing:
the session enters `Finished`. -/
def Session.FinishScan {Tp : Type} (s : Session Tp) : Session Tp :=
  { s with phase := SessionPhase.Finished }

/-- Modelled from the spec: `Reset` (sections 3 and 4.4), whose code is missing: the
session is back to `Idle` and the seen-set is reset. -/
def Session.Reset {Tp : Type} (_s : Session Tp) : Session Tp :=
  { phase := SessionPhase.Idle, seenSet := [] }

/-! ## Data model of `saveMap`

The ORB-SLAM2 classes are not part of these sources; each is reduced to what `saveMap`
reads from it. `R` is the type of the numbers written with `operator<<`. -/

/-- The type `cv::Point2f`. -/
structure Point2f (R : Type) where
  x : R
  y : R
deriving DecidableEq, Repr

/-- The type `cv::KeyPoint`, reduced to its field `pt`. -/
structure KeyPoint (R : Type) where
  pt : Point2f R
deriving DecidableEq, Repr

/-- The class `ORB_SLAM2::KeyFrame`, reduced to `image.empty()`, `mnId` and `mvKeysUn`. -/
structure KeyFrame (R : Type) where
  imageEmpty : Bool
  mnId : Nat
  mvKeysUn : List (KeyPoint R)
deriving DecidableEq, Repr

/-- The class `ORB_SLAM2::MapPoint`, reduced to what its getters return: `isBad()`,
`GetWorldPos()` and `GetNormal()` as their three entries, the two distance bounds, and
`GetObservations()` as the list of its (key frame, key point index) pairs in the
iteration order of the `std::map`. -/
structure MapPoint (R : Type) where
  isBad : Bool
  worldPos : Point3_ R
  normal : Point3_ R
  minDistanceInvariance : R
  maxDistanceInvariance : R
  observations : List (KeyFrame R × Nat)
deriving DecidableEq, Repr

/-- What `saveMap` sends to the stream `pointData`, piece by piece: a number, the id of
a key frame, the string `","`, or `std::endl`. -/
inductive Tok (R : Type) where
  | num (v : R)
  | frameId (n : Nat)
  | comma
  | endl
deriving DecidableEq, Repr

/-- Lines 79-85: the body of the loop over the observations. An observation whose key
frame has an empty image writes nothing; any other writes `,mnId,x,y` for the key point
`mvKeysUn[pointIndex]`. (The source leaves `operator[]` undefined beyond the end of the
vector; the lookup gives a default key point there.) -/
def observationBody {R : Type} [Inhabited R] (obs : KeyFrame R × Nat) : List (Tok R) :=
  let currentFrame := obs.1
  if !currentFrame.imageEmpty then
    let pointIndex := obs.2
    let keyPoint := currentFrame.mvKeysUn.getD pointIndex ⟨⟨default, default⟩⟩
    let featurePoint := keyPoint.pt
    [Tok.comma, Tok.frameId currentFrame.mnId, Tok.comma, Tok.num featurePoint.x,
      Tok.comma, Tok.num featurePoint.y]
  else []

/-- Lines 78-86: the loop over the observations of a map point. -/
def observationsLoop {R : Type} [Inhabited R] : List (KeyFrame R × Nat) → List (Tok R)
  | [] => []
  | obs :: rest => observationBody obs ++ observationsLoop rest

/-- Lines 60-86 for one good map point `p`, up to but without the `std::endl`: the world
position is read, `UpdateNormalAndDepth` is run on the point, and the eight leading
numbers and the observations of the updated point are written. -/
def mapPointRow {R : Type} [Inhabited R] (UpdateNormalAndDepth : MapPoint R → MapPoint R)
    (p : MapPoint R) : List (Tok R) :=
  let worldPos := p.worldPos
  let p' := UpdateNormalAndDepth p
  let Pn := p'.normal
  [Tok.num worldPos.x, Tok.comma, Tok.num worldPos.y, Tok.comma, Tok.num worldPos.z]
    ++ [Tok.comma, Tok.num p'.minDistanceInvariance, Tok.comma,
        Tok.num p'.maxDistanceInvariance, Tok.comma, Tok.num Pn.x, Tok.comma, Tok.num Pn.y,
        Tok.comma, Tok.num Pn.z]
    ++ observationsLoop p'.observations

/-- Lines 54-89 of `saveMap`: everything sent to `pointData` for the vector returned by
`GetAllMapPoints()` (`none` is a null pointer). `UpdateNormalAndDepth` belongs to
ORB-SLAM2 and is taken as a parameter. -/
def saveMap {R : Type} [Inhabited R] (UpdateNormalAndDepth : MapPoint R → MapPoint R) :
    List (Option (MapPoint R)) → List (Tok R)
  | [] => []
  | none :: rest => saveMap UpdateNormalAndDepth rest
  | some p :: rest =>
    if !p.isBad then
      mapPointRow UpdateNormalAndDepth p ++ [Tok.endl] ++ saveMap UpdateNormalAndDepth rest
    else saveMap UpdateNormalAndDepth rest

/-! ## Reading the written text back as rows and fields -/

/-- The rows of a text: each `std::endl` closes the row collected in `cur`; pieces after
the last `std::endl` form a last, unterminated row. -/
def rowsFrom {R : Type} : List (Tok R) → List (Tok R) → List (List (Tok R))
  | cur, [] => if cur.isEmpty then [] else [cur]
  | cur, Tok.endl :: rest => cur :: rowsFrom [] rest
  | cur, t :: rest => rowsFrom (cur ++ [t]) rest

/-- The rows of the written text. -/
def rows {R : Type} (text : List (Tok R)) : List (List (Tok R)) := rowsFrom [] text

/-- The comma-separated fields of a row: each `","` closes the field collected in `cur`. -/
def fieldsFrom {R : Type} : List (Tok R) → List (Tok R) → List (List (Tok R))
  | cur, [] => [cur]
  | cur, Tok.comma :: rest => cur :: fieldsFrom [] rest
  | cur, t :: rest => fieldsFrom (cur ++ [t]) rest

/-- The comma-separated fields of a row. -/
def fields {R : Type} (row : List (Tok R)) : List (List (Tok R)) := fieldsFrom [] row

/-- The eight fields that open the row of a map point. -/
def leadingFields {R : Type} (UpdateNormalAndDepth : MapPoint R → MapPoint R)
    (p : MapPoint R) : List (List (Tok R)) :=
  [[Tok.num p.worldPos.x], [Tok.num p.worldPos.y], [Tok.num p.worldPos.z],
    [Tok.num (UpdateNormalAndDepth p).minDistanceInvariance],
    [Tok.num (UpdateNormalAndDepth p).maxDistanceInvariance],
    [Tok.num (UpdateNormalAndDepth p).normal.x], [Tok.num (UpdateNormalAndDepth p).normal.y],
    [Tok.num (UpdateNormalAndDepth p).normal.z]]

/-- The three fields `frameId, keypointX, keypointY` of an observation. -/
def tripleFields {R : Type} [Inhabited R] (obs : KeyFrame R × Nat) : List (List (Tok R)) :=
  [[Tok.frameId obs.1.mnId],
    [Tok.num (obs.1.mvKeysUn.getD obs.2 ⟨⟨default, default⟩⟩).pt.x],
    [Tok.num (obs.1.mvKeysUn.getD obs.2 ⟨⟨default, default⟩⟩).pt.y]]

/-- The number of complete triples that follow the eight leading fields of a row. -/
def tripleCount {R : Type} (row : List (Tok R)) : Nat := ((fields row).length - 8) / 3

/-- How a call of `saveMap` comes back to its caller. -/
inductive Completion where
  /-- The call returned (the function is `void`: nothing is handed back). -/
  | returned
  /-- The call raised an input/output error. -/
  | ioError
deriving DecidableEq, Repr

/-- What a call of `saveMap` leaves behind. -/
structure SaveOutcome (R : Type) where
  /-- The text of the target file, `none` when it could not be opened. -/
  fileText : Option (List (Tok R))
  /-- The lines printed on `std::cout`. -/
  console : List String
  /-- How the call came back. -/
  completion : Completion
deriving DecidableEq, Repr

/-- The whole of `saveMap`, lines 46-93. `canOpen` tells whether `pointData.open` (line
52) succeeds. The stream state is never tested and the exception mask of a
`std::ofstream` is empty, so after a failed `open` every `<<` writes nothing and raises
nothing; line 91 prints `saved map` and the function returns. -/
def saveMapTo {R : Type} [Inhabited R] (canOpen : Bool)
    (UpdateNormalAndDepth : MapPoint R → MapPoint R) (points : List (Option (MapPoint R))) :
    SaveOutcome R :=
  { fileText := if canOpen then some (saveMap UpdateNormalAndDepth points) else none
    console := ["saved map"]
    completion := Completion.returned }

/-! ## The camera helpers of `run_model_on_orb_slam.cc` and `run_model_with_icp.cc`

The pangolin and Eigen classes are not part of these sources; each is reduced to what the
helpers use of it. The numbers are those of a field `Tp`; `cos`, `sin` and `M_PI` are
those of `<cmath>`, taken as parameters. `convert_points` keeps `double` and `float`
apart. -/

/-- The class `pangolin::OpenGlMatrix`: its sixteen entries `m[0]` to `m[15]`. -/
structure OpenGlMatrix (Tp : Type) where
  m : Fin 16 → Tp

/-- The index `j * 4 + i` under which entry `(i, j)` is kept (column after column). -/
def OpenGlMatrix.index (i j : Fin 4) : Fin 16 := ⟨j.val * 4 + i.val, by omega⟩

/-- The function `pangolin::ToEigen<double>`: entry `(r, c)` of the result is
`m[4 * c + r]`. -/
def ToEigen {Tp : Type} (M : OpenGlMatrix Tp) : Matrix (Fin 4) (Fin 4) Tp :=
  Matrix.of fun r c => M.m (OpenGlMatrix.index r c)

/-- The conversion of an Eigen matrix to a `pangolin::OpenGlMatrix`, which
`SetModelViewMatrix(camMatrix)` applies to its argument: `m[c * 4 + r] = mat(r, c)`. -/
def OpenGlMatrix.ofEigen {Tp : Type} (mat : Matrix (Fin 4) (Fin 4) Tp) : OpenGlMatrix Tp :=
  ⟨fun k => mat ⟨k.val % 4, Nat.mod_lt _ (by decide)⟩ ⟨k.val / 4, by omega⟩⟩

/-- The class `pangolin::OpenGlRenderState`, reduced to its two matrices. -/
structure OpenGlRenderState (Tp : Type) where
  modelview : OpenGlMatrix Tp
  projection : OpenGlMatrix Tp

/-- The statement `camMatrix(i, j) += value`. -/
def addToEntry {Tp : Type} [Add Tp] (camMatrix : Matrix (Fin 4) (Fin 4) Tp) (i j : Fin 4)
    (value : Tp) : Matrix (Fin 4) (Fin 4) Tp :=
  Matrix.of fun r c => if r = i ∧ c = j then camMatrix r c + value else camMatrix r c

/-- The function `applyUpModelCam` (lines 332-336). -/
def applyUpModelCam {Tp : Type} [Add Tp] (s_cam : OpenGlRenderState Tp) (value : Tp) :
    OpenGlRenderState Tp :=
  let camMatrix := ToEigen s_cam.modelview
  let camMatrix := addToEntry camMatrix 1 3 value
  { s_cam with modelview := OpenGlMatrix.ofEigen camMatrix }

/-- The function `applyForwardToModelCam` (lines 338-342). -/
def applyForwardToModelCam {Tp : Type} [Add Tp] (s_cam : OpenGlRenderState Tp) (value : Tp) :
    OpenGlRenderState Tp :=
  let camMatrix := ToEigen s_cam.modelview
  let camMatrix := addToEntry camMatrix 2 3 value
  { s_cam with modelview := OpenGlMatrix.ofEigen camMatrix }

/-- The function `applyRightToModelCam` (lines 344-348). -/
def applyRightToModelCam {Tp : Type} [Add Tp] (s_cam : OpenGlRenderState Tp) (value : Tp) :
    OpenGlRenderState Tp :=
  let camMatrix := ToEigen s_cam.modelview
  let camMatrix := addToEntry camMatrix 0 3 value
  { s_cam with modelview := OpenGlMatrix.ofEigen camMatrix }

/-- The statement `pangolinR.block<3, 3>(0, 0) = R`: the top-left 3x3 block of `pangolinR`
is overwritten with `R`. -/
def setTopLeftBlock {Tp : Type} (pangolinR : Matrix (Fin 4) (Fin 4) Tp)
    (R : Matrix (Fin 3) (Fin 3) Tp) : Matrix (Fin 4) (Fin 4) Tp :=
  Matrix.of fun i j =>
    if h : i.val < 3 ∧ j.val < 3 then R ⟨i.val, h.1⟩ ⟨j.val, h.2⟩ else pangolinR i j

/-- The two nested `for` loops that copy `camMatrix` into `newModelView`:
`newModelView.m[j * 4 + i] = camMatrix(i, j)` for `i` and then `j` from 0 to 3. -/
def writeBackLoop {Tp : Type} (camMatrix : Matrix (Fin 4) (Fin 4) Tp)
    (newModelView : OpenGlMatrix Tp) : OpenGlMatrix Tp :=
  (List.finRange 4).foldl
    (fun acc i =>
      (List.finRange 4).foldl
        (fun acc j => ⟨Function.update acc.m (OpenGlMatrix.index i j) (camMatrix i j)⟩) acc)
    newModelView

/-- The function `applyYawRotationToModelCam` (lines 350-385). `newModelView` is the
local matrix of that name as declared, before the loops write it. -/
def applyYawRotationToModelCam {Tp : Type} [Field Tp] (cos sin : Tp → Tp) (M_PI : Tp)
    (newModelView : OpenGlMatrix Tp) (s_cam : OpenGlRenderState Tp) (value : Tp) :
    OpenGlRenderState Tp :=
  let rand := value * (M_PI / 180)
  let c := cos rand
  let s := sin rand
  let R : Matrix (Fin 3) (Fin 3) Tp := !![c, 0, s; 0, 1, 0; -s, 0, c]
  let pangolinR := setTopLeftBlock (1 : Matrix (Fin 4) (Fin 4) Tp) R
  let camMatrix := ToEigen s_cam.modelview
  let camMatrix := pangolinR * camMatrix
  { s_cam with modelview := writeBackLoop camMatrix newModelView }

/-- The function `applyPitchRotationToModelCam` (lines 387-422). -/
def applyPitchRotationToModelCam {Tp : Type} [Field Tp] (cos sin : Tp → Tp) (M_PI : Tp)
    (newModelView : OpenGlMatrix Tp) (s_cam : OpenGlRenderState Tp) (value : Tp) :
    OpenGlRenderState Tp :=
  let rand := value * (M_PI / 180)
  let c := cos rand
  let s := sin rand
  let R : Matrix (Fin 3) (Fin 3) Tp := !![1, 0, 0; 0, c, -s; 0, s, c]
  let pangolinR := setTopLeftBlock (1 : Matrix (Fin 4) (Fin 4) Tp) R
  let camMatrix := ToEigen s_cam.modelview
  let camMatrix := pangolinR * camMatrix
  { s_cam with modelview := writeBackLoop camMatrix newModelView }

/-- The loop of `convert_points` (lines 101-104 of `run_model_with_icp.cc`):
`transformed_points` is the vector built so far, the last argument the points still to
visit. `D` is the type `double` and `F` the type `float`; `toFloat` is the cast `(float)`,
`toDouble` the cast `(double)`, `oneF` the constant `1.0f`, and `mulVec4f` the product of
an `Eigen::Matrix4f` and an `Eigen::Vector4f`, which Eigen computes in `float`; Eigen is
not part of these sources and the product is taken as a parameter. -/
def convert_pointsLoop {D F : Type} (toFloat : D → F) (toDouble : F → D) (oneF : F)
    (mulVec4f : Matrix (Fin 4) (Fin 4) F → (Fin 4 → F) → Fin 4 → F)
    (transformation_mat : Matrix (Fin 4) (Fin 4) F) :
    List (Point3_ D) → List (Point3_ D) → List (Point3_ D)
  | transformed_points, [] => transformed_points
  | transformed_points, point :: rest =>
    let transformed_point := mulVec4f transformation_mat
      ![toFloat point.x, toFloat point.y, toFloat point.z, oneF]
    convert_pointsLoop toFloat toDouble oneF mulVec4f transformation_mat
      (transformed_points ++ [⟨toDouble (transformed_point 0), toDouble (transformed_point 1),
        toDouble (transformed_point 2)⟩])
      rest

/-- The function `convert_points` (lines 99-106 of `run_model_with_icp.cc`). -/
def convert_points {D F : Type} (toFloat : D → F) (toDouble : F → D) (oneF : F)
    (mulVec4f : Matrix (Fin 4) (Fin 4) F → (Fin 4 → F) → Fin 4 → F)
    (points : List (Point3_ D)) (transformation_mat : Matrix (Fin 4) (Fin 4) F) :
    List (Point3_ D) :=
  convert_pointsLoop toFloat toDouble oneF mulVec4f transformation_mat [] points

/-- The 4x4 homogeneous rotation about the Y axis whose angle has cosine `c` and sine
`s`. -/
def rotationY {Tp : Type} [Ring Tp] (c s : Tp) : Matrix (Fin 4) (Fin 4) Tp :=
  !![c, 0, s, 0; 0, 1, 0, 0; -s, 0, c, 0; 0, 0, 0, 1]

/-- The 4x4 homogeneous rotation about the X axis whose angle has cosine `c` and sine
`s`. -/
def rotationX {Tp : Type} [Ring Tp] (c s : Tp) : Matrix (Fin 4) (Fin 4) Tp :=
  !![1, 0, 0, 0; 0, c, -s, 0; 0, s, c, 0; 0, 0, 0, 1]

/-! ## The visibility query of the spec

`Auxiliary::getPointsFromPos` is called by `simulator.cc`; its body is not part of these
sources. The query is taken from section 4.3 of the spec, over the real numbers. -/

/-- Modelled from the spec: the landmark of section 3, whose code is missing, reduced to
what the three tests of the query read: position, viewing-direction normal and the
distance range. -/
structure MapLandmark where
  position : Point3_ ℝ
  normal : Point3_ ℝ
  minDistance : ℝ
  maxDistance : ℝ

/-- Modelled from the spec: `Project` of section 4.2, whose code is missing: `Tcw` applied
to the homogeneous world point; the result is the camera-frame coordinate. -/
def Project (Tcw : Matrix (Fin 4) (Fin 4) ℝ) (p : Point3_ ℝ) : Point3_ ℝ :=
  { x := Tcw.mulVec ![p.x, p.y, p.z, 1] 0
    y := Tcw.mulVec ![p.x, p.y, p.z, 1] 1
    z := Tcw.mulVec ![p.x, p.y, p.z, 1] 2 }

/-- The Euclidean length of a vector. -/
noncomputable def vectorNorm (v : Point3_ ℝ) : ℝ := Real.sqrt (v.x ^ 2 + v.y ^ 2 + v.z ^ 2)

/-- The vector from `a` to `b`. -/
def vectorFromTo (a b : Point3_ ℝ) : Point3_ ℝ := ⟨b.x - a.x, b.y - a.y, b.z - a.z⟩

/-- The angle between two vectors, in radians. -/
noncomputable def angleBetween (u v : Point3_ ℝ) : ℝ :=
  Real.arccos ((u.x * v.x + u.y * v.y + u.z * v.z) / (vectorNorm u * vectorNorm v))

/-- Modelled from the spec: the frustum test of section 4.3, whose code is missing: the
camera-space coordinate of the landmark has positive depth and lies within the bounds of
the field of view, which the camera model of the caller supplies (`inFieldOfView`). -/
def FrustumTest (inFieldOfView : Point3_ ℝ → Prop) (Tcw : Matrix (Fin 4) (Fin 4) ℝ)
    (L : MapLandmark) : Prop :=
  0 < (Project Tcw L.position).z ∧ inFieldOfView (Project Tcw L.position)

/-- Modelled from the spec: the distance-invariance test of section 4.3, whose code is
missing: the Euclidean distance from the camera centre to the landmark lies in
`[minDistance, maxDistance]`. -/
def DistanceTest (cameraCenterWorld : Point3_ ℝ) (L : MapLandmark) : Prop :=
  L.minDistance ≤ vectorNorm (vectorFromTo cameraCenterWorld L.position) ∧
    vectorNorm (vectorFromTo cameraCenterWorld L.position) ≤ L.maxDistance

/-- Modelled from the spec: the viewing-angle test of section 4.3, whose code is missing:
the angle between the normal and the vector from the landmark to the camera centre is
below the threshold; a normal of zero magnitude passes. -/
def ViewingAngleTest (threshold : ℝ) (cameraCenterWorld : Point3_ ℝ) (L : MapLandmark) :
    Prop :=
  vectorNorm L.normal = 0 ∨
    angleBetween L.normal (vectorFromTo L.position cameraCenterWorld) < threshold

/-- Modelled from the spec: `Query` of section 4.3, whose code
(`Auxiliary::getPointsFromPos`) is missing: the landmarks that pass the three tests, each
landmark tested on its own, in the order of the store. -/
noncomputable def Query (inFieldOfView : Point3_ ℝ → Prop) (threshold : ℝ)
    (landmarks : List MapLandmark) (Tcw : Matrix (Fin 4) (Fin 4) ℝ)
    (cameraCenterWorld : Point3_ ℝ) : List MapLandmark :=
  landmarks.filter (fun L =>
    @decide (FrustumTest inFieldOfView Tcw L ∧ DistanceTest cameraCenterWorld L ∧
      ViewingAngleTest threshold cameraCenterWorld L) (Classical.propDecidable _))

/-- The landmark `P1` of the scenario of section 8: position `(0, 0, 5)`, distance range
`[1, 10]`, normal `(0, 0, -1)`. -/
def scenarioP1 : MapLandmark :=
  { position := ⟨0, 0, 5⟩, normal := ⟨0, 0, -1⟩, minDistance := 1, maxDistance := 10 }

/-- The world-to-camera transform of a camera at `(0, 0, 20)` that looks down `+Z`. -/
def cameraAtTwenty : Matrix (Fin 4) (Fin 4) ℝ :=
  !![1, 0, 0, 0; 0, 1, 0, 0; 0, 0, 1, -20; 0, 0, 0, 1]

/-! ## `inverseTransformPoint` of `run_model_with_icp.cc` -/

/-- Eigen's `inverse()` on a 4x4 matrix: the matrix of cofactors, transposed, divided by
the determinant. -/
def inverse {Tp : Type} [Field Tp] (transformation : Matrix (Fin 4) (Fin 4) Tp) :
    Matrix (Fin 4) (Fin 4) Tp :=
  (transformation.det)⁻¹ • transformation.adjugate

/-- The function `inverseTransformPoint` (lines 94-97 of `run_model_with_icp.cc`); an
`Eigen::Vector4f` is kept as its four components. -/
def inverseTransformPoint {Tp : Type} [Field Tp] (point : Fin 4 → Tp)
    (transformation : Matrix (Fin 4) (Fin 4) Tp) : Fin 4 → Tp :=
  let inverse_transformation := inverse transformation
  inverse_transformation.mulVec point

/-! ## `read_matrix_4d_from_csv` of `take_frame_images.cc`

A file is the list of its characters. `std::stod` is taken as a parameter: it gives the
number a cell starts with, or nothing when it throws. -/

/-- The line feed, at which `std::getline(csv_file, line)` cuts. -/
def lineFeed : Char := Char.ofNat 10

/-- The character at which `std::getline(line_stream, cell, ',')` cuts. -/
def cellSeparator : Char := ','

/-- The strings that successive calls of `std::getline(stream, out, delim)` deliver from a
stream holding the given characters, up to the call that fails. `cur` collects the
characters of the string being read. Each `delim` closes a string and is dropped; the
characters after the last `delim` form a last string; a call that finds the stream at its
end fails, so nothing follows a closing `delim` at the very end. -/
def getlinesFrom (delim : Char) : List Char → List Char → List (List Char)
  | cur, [] => if cur.isEmpty then [] else [cur]
  | cur, c :: rest =>
    if c = delim then cur :: getlinesFrom delim [] rest
    else getlinesFrom delim (cur ++ [c]) rest

/-- The strings that successive calls of `std::getline` with `delim` deliver. -/
def getlines (delim : Char) (text : List Char) : List (List Char) := getlinesFrom delim [] text

/-- One execution of the assignment `matrix(row, col) = ...` of line 47. -/
structure MatrixWrite (Tp : Type) where
  row : Nat
  col : Nat
  value : Tp
deriving DecidableEq, Repr

/-- The state of `read_matrix_4d_from_csv` while it reads: the matrix, the assignments
made to it so far, in order, and whether `std::stod` has thrown. -/
structure ReadRun (Tp : Type) where
  matrix : Matrix (Fin 4) (Fin 4) Tp
  writes : List (MatrixWrite Tp)
  thrown : Bool

/-- The assignment `matrix(row, col) = value` on the 4x4 storage: the entry `(row, col)`
takes the value. (An index beyond 3 has no entry; the source leaves such an assignment
undefined and here it changes nothing.) -/
def writeEntry {Tp : Type} (matrix : Matrix (Fin 4) (Fin 4) Tp) (w : MatrixWrite Tp) :
    Matrix (Fin 4) (Fin 4) Tp :=
  Matrix.of fun r c => if r.val = w.row ∧ c.val = w.col then w.value else matrix r c

/-- The inner `while` loop (lines 46-49) on the cells that `std::getline` still delivers
from `line_stream`, `col` being the counter: the loop ends when `std::getline` fails or
when `col < 4` fails; otherwise `std::stod(cell)` is stored in `matrix(row, col)`. -/
def cellLoop {Tp : Type} (stod : List Char → Option Tp) (row : Nat) :
    Nat → List (List Char) → ReadRun Tp → ReadRun Tp
  | _, [], run => run
  | col, cell :: later, run =>
    if col < 4 then
      match stod cell with
      | none => { run with thrown := true }
      | some value =>
        cellLoop stod row (col + 1) later
          { run with
            matrix := writeEntry run.matrix ⟨row, col, value⟩
            writes := run.writes ++ [⟨row, col, value⟩] }
    else run

/-- The outer `while` loop (lines 42-51) on the lines that `std::getline` still delivers
from `csv_file`, `row` being the counter. -/
def lineLoop {Tp : Type} (stod : List Char → Option Tp) :
    Nat → List (List Char) → ReadRun Tp → ReadRun Tp
  | _, [], run => run
  | row, line :: later, run =>
    if row < 4 then
      let run' := cellLoop stod row 0 (getlines cellSeparator line) run
      if run'.thrown then run' else lineLoop stod (row + 1) later run'
    else run

/-- The function `read_matrix_4d_from_csv` (lines 28-56). `matrix` is the local matrix as
declared, before anything is stored in it; `csv_file` is the text of the file, `none`
when it cannot be opened, in which case `matrix` is returned as it is. When `thrown` is
set the call ended by the exception of `std::stod` and returned nothing. -/
def read_matrix_4d_from_csv {Tp : Type} (stod : List Char → Option Tp)
    (matrix : Matrix (Fin 4) (Fin 4) Tp) (csv_file : Option (List Char)) : ReadRun Tp :=
  match csv_file with
  | none => { matrix := matrix, writes := [], thrown := false }
  | some text =>
    lineLoop stod 0 (getlines lineFeed text) { matrix := matrix, writes := [], thrown := false }

/-- Cell `c` of line `r` of a text, counted from 0, when there is one. -/
def cellAt (text : List Char) (r c : Nat) : Option (List Char) :=
  ((getlines lineFeed text)[r]?).bind (fun line => (getlines cellSeparator line)[c]?)

/-! ## Concrete inputs used in the closed statements -/

/-- A key frame with an image and one key point at `(10, 20)`. -/
def frameWithImage : KeyFrame Int := ⟨false, 7, [⟨⟨10, 20⟩⟩]⟩

/-- A key frame whose image is empty, with one key point at `(30, 40)`. -/
def frameWithoutImage : KeyFrame Int := ⟨true, 8, [⟨⟨30, 40⟩⟩]⟩

/-- A good map point seen from `frameWithImage` and from `frameWithoutImage`. -/
def twoFramePoint : MapPoint Int :=
  ⟨false, ⟨1, 2, 3⟩, ⟨0, 0, 1⟩, 4, 5, [(frameWithImage, 0), (frameWithoutImage, 0)]⟩

/-- A good map point with no observation. -/
def unobservedPoint : MapPoint Int := ⟨false, ⟨6, 7, 8⟩, ⟨0, 1, 0⟩, 2, 9, []⟩

/-- A bad map point. -/
def badPoint : MapPoint Int := ⟨true, ⟨9, 9, 9⟩, ⟨1, 0, 0⟩, 1, 2, [(frameWithImage, 0)]⟩

/-- A query that returns the single point `(1, 2, 3)` whatever the pose. -/
def onePointQuery : Point3_ Int → Int → Int → Int → List (Point3_ Int) :=
  fun _ _ _ _ => [⟨1, 2, 3⟩]

/-- A landmark at `(1, 2, 3)` that has been seen. -/
def seenLandmark : Landmark Int := ⟨0, ⟨1, 2, 3⟩⟩

/-- A second landmark, with the coordinates of `seenLandmark`. -/
def twinLandmark : Landmark Int := ⟨1, ⟨1, 2, 3⟩⟩

/-- A stand-in for `std::stod` on cells made of decimal digits: the number they spell. -/
def stodDigits (cell : List Char) : Option Int :=
  if cell.all Char.isDigit && !cell.isEmpty then
    some (cell.foldl (fun n ch => 10 * n + ((ch.toNat : Int) - 48)) 0)
  else none

/-- A file of five lines; the first line has five cells, the last line one. -/
def fiveLineFile : List Char :=
  ['1', ',', '2', ',', '3', ',', '4', ',', '9', lineFeed,
   '5', ',', '6', ',', '7', ',', '8', lineFeed,
   '1', '0', ',', '1', '1', ',', '1', '2', ',', '1', '3', lineFeed,
   '2', ',', '4', ',', '6', ',', '8', lineFeed,
   '7', lineFeed]

/-- The position of the leading binary digit of `a` (0 for `a < 2`), found in at most
`fuel` halvings. -/
def leadingBit : Nat → Nat → Nat
  | 0, _ => 0
  | fuel + 1, a => if 2 ≤ a then leadingBit fuel (a / 2) + 1 else 0

/-- The cast `(float)` on a `double` that holds an integer: the nearest number with 24
significant binary digits, a tie going to the even one. -/
def floatOfInt (n : Int) : Int :=
  let a := n.natAbs
  let ulp := 2 ^ (leadingBit 1100 a - 23)
  let q := a / ulp
  let r := a % ulp
  let m := if ulp < 2 * r ∨ (2 * r = ulp ∧ q % 2 = 1) then q + 1 else q
  if n < 0 then -((m * ulp : Nat) : Int) else ((m * ulp : Nat) : Int)

/-- The product of a 4x4 matrix and a vector in `float` arithmetic on integers: every
product and every sum is rounded by `floatOfInt`. -/
def floatMulVec (T : Matrix (Fin 4) (Fin 4) Int) (v : Fin 4 → Int) : Fin 4 → Int :=
  fun i =>
    floatOfInt (floatOfInt (floatOfInt (floatOfInt (T i 0 * v 0) + floatOfInt (T i 1 * v 1))
      + floatOfInt (T i 2 * v 2)) + floatOfInt (T i 3 * v 3))

/-- The point `(NaN, 0, 0)`. -/
def nanPoint : Point3_ IeeeDouble := ⟨IeeeDouble.nan, IeeeDouble.num 0, IeeeDouble.num 0⟩

/-! ## Lemmas on the erase loop -/

theorem found_of_mem {Tp : Type} [BEq Tp] (points_seen : List (Point3_ Tp)) (p : Point3_ Tp)
    (hmem : p ∈ points_seen) (hrefl : p.eq p = true) : found points_seen p = true := by
  induction points_seen with
  | nil => simp at hmem
  | cons a rest ih =>
    rcases List.mem_cons.1 hmem with h | h
    · subst h
      simp [found, hrefl]
    · cases ha : a.eq p <;> simp [found, ha, ih h]

theorem found_append {Tp : Type} [BEq Tp] (first second : List (Point3_ Tp)) (p : Point3_ Tp) :
    found (first ++ second) p = (found first p || found second p) := by
  induction first with
  | nil => simp [found]
  | cons a rest ih => cases ha : a.eq p <;> simp [found, ha, ih]

theorem eraseLoop_eq_filter {Tp : Type} [BEq Tp] (points_seen front query : List (Point3_ Tp)) :
    eraseLoop points_seen front query
      = front ++ query.filter (fun p => !found points_seen p) := by
  induction query generalizing front with
  | nil => simp [eraseLoop]
  | cons p rest ih => cases hp : found points_seen p <;> simp [eraseLoop, hp, ih]

theorem accumulate_new_filter {Tp : Type} [BEq Tp] (points_seen query : List (Point3_ Tp)) :
    (accumulate points_seen query).new_points_seen
      = query.filter (fun p => !found points_seen p) := by
  simp [accumulate, eraseLoop_eq_filter]

theorem accumulate_seen_filter {Tp : Type} [BEq Tp] (points_seen query : List (Point3_ Tp)) :
    (accumulate points_seen query).points_seen
      = points_seen ++ query.filter (fun p => !found points_seen p) := by
  simp [accumulate, eraseLoop_eq_filter]

theorem filter_seen_again {Tp : Type} [BEq Tp] (points_seen query : List (Point3_ Tp))
    (hrefl : ∀ p ∈ query, p.eq p = true) :
    query.filter (fun p => !found (accumulate points_seen query).points_seen p) = [] := by
  rw [List.filter_eq_nil_iff]
  intro p hp
  rw [accumulate_seen_filter, found_append]
  cases hf : found points_seen p
  · have hmem : p ∈ query.filter (fun q => !found points_seen q) :=
      List.mem_filter.2 ⟨hp, by simp [hf]⟩
    simp [found_of_mem _ p hmem (hrefl p hp)]
  · simp

theorem accumulate_nodup_of_refl {Tp : Type} [BEq Tp] (points_seen query : List (Point3_ Tp))
    (hs : points_seen.Nodup) (hq : query.Nodup) (hrefl : ∀ p ∈ points_seen, p.eq p = true) :
    (accumulate points_seen query).points_seen.Nodup := by
  rw [accumulate_seen_filter, List.nodup_append]
  refine ⟨hs, hq.filter _, ?_⟩
  intro p hp hp'
  have hnot := (List.mem_filter.1 hp').2
  simp [found_of_mem points_seen p hp (hrefl p hp)] at hnot

theorem runSteps_bounded_of_refl {Tp : Type} [BEq Tp] (cloud points_seen : List (Point3_ Tp))
    (queries : List (List (Point3_ Tp))) (hrefl : ∀ p ∈ cloud, p.eq p = true)
    (hs : points_seen.Nodup) (hsub : points_seen ⊆ cloud)
    (hq : ∀ query ∈ queries, query.Nodup ∧ query ⊆ cloud) :
    (runSteps points_seen queries).Nodup ∧ runSteps points_seen queries ⊆ cloud := by
  induction queries generalizing points_seen with
  | nil => exact ⟨hs, hsub⟩
  | cons q qs ih =>
    have hq0 := hq q (List.mem_cons_self _ _)
    refine ih _ (accumulate_nodup_of_refl points_seen q hs hq0.1
      (fun p hp => hrefl p (hsub hp))) ?_ (fun query hmem => hq query (List.mem_cons_of_mem _ hmem))
    rw [accumulate_seen_filter]
    intro p hp
    rcases List.mem_append.1 hp with h | h
    · exact hsub h
    · exact hq0.2 (List.mem_of_mem_filter h)

theorem Point3_.eq_iff {Tp : Type} [DecidableEq Tp] (a b : Point3_ Tp) :
    a.eq b = true ↔ a = b := by
  cases a
  cases b
  simp [Point3_.eq, and_assoc]

theorem found_iff {Tp : Type} [DecidableEq Tp] (points_seen : List (Point3_ Tp))
    (value : Point3_ Tp) : found points_seen value = true ↔ value ∈ points_seen := by
  induction points_seen with
  | nil => simp [found]
  | cons a rest ih =>
    by_cases h : a = value
    · subst h
      simp [found, (Point3_.eq_iff a a).2 rfl]
    · have h' : a.eq value = false := by
        cases hb : a.eq value
        · rfl
        · exact absurd ((Point3_.eq_iff a value).1 hb) h
      have hne : ¬ value = a := fun e => h e.symm
      simp [found, h', ih, hne]

theorem eraseLoop_eq {Tp : Type} [DecidableEq Tp] (points_seen : List (Point3_ Tp))
    (front query : List (Point3_ Tp)) :
    eraseLoop points_seen front query
      = front ++ query.filter (fun p => decide (p ∉ points_seen)) := by
  induction query generalizing front with
  | nil => simp [eraseLoop]
  | cons p rest ih =>
    by_cases h : p ∈ points_seen
    · simp [eraseLoop, (found_iff points_seen p).2 h, ih, h]
    · have hf : found points_seen p = false := by
        cases hb : found points_seen p
        · rfl
        · exact absurd ((found_iff points_seen p).1 hb) h
      simp [eraseLoop, hf, ih, h]

theorem accumulate_new {Tp : Type} [DecidableEq Tp] (points_seen query : List (Point3_ Tp)) :
    (accumulate points_seen query).new_points_seen
      = query.filter (fun p => decide (p ∉ points_seen)) := by
  simp [accumulate, eraseLoop_eq]

theorem accumulate_seen {Tp : Type} [DecidableEq Tp] (points_seen query : List (Point3_ Tp)) :
    (accumulate points_seen query).points_seen
      = points_seen ++ query.filter (fun p => decide (p ∉ points_seen)) := by
  simp [accumulate, eraseLoop_eq]

theorem runSteps_append {Tp : Type} [DecidableEq Tp] (points_seen : List (Point3_ Tp))
    (earlier later : List (List (Point3_ Tp))) :
    runSteps points_seen (earlier ++ later) = runSteps (runSteps points_seen earlier) later := by
  induction earlier generalizing points_seen with
  | nil => rfl
  | cons q qs ih => simp [runSteps, ih]

theorem runSteps_extends {Tp : Type} [DecidableEq Tp] (points_seen : List (Point3_ Tp))
    (queries : List (List (Point3_ Tp))) : points_seen <+: runSteps points_seen queries := by
  induction queries generalizing points_seen with
  | nil => exact List.prefix_refl _
  | cons q qs ih =>
    refine List.IsPrefix.trans ?_ (ih (accumulate points_seen q).points_seen)
    rw [accumulate_seen]
    exact List.prefix_append _ _

theorem runSteps_subset {Tp : Type} [DecidableEq Tp] (cloud points_seen : List (Point3_ Tp))
    (queries : List (List (Point3_ Tp))) (hs : points_seen ⊆ cloud)
    (hq : ∀ query ∈ queries, query ⊆ cloud) : runSteps points_seen queries ⊆ cloud := by
  induction queries generalizing points_seen with
  | nil => exact hs
  | cons q qs ih =>
    refine ih _ ?_ (fun query hmem => hq query (List.mem_cons_of_mem _ hmem))
    rw [accumulate_seen]
    intro p hp
    rcases List.mem_append.1 hp with h | h
    · exact hs h
    · exact hq q (List.mem_cons_self _ _) (List.mem_of_mem_filter h)

/-! ## The accumulation step -/

/-- C2 (counterexample): the query result holds the point `(NaN, 0, 0)`, which `==` does
not find equal to itself. Starting from an empty `points_seen`, the second pass with the
same query result reports the point again and `points_seen` grows from one point to two. -/
theorem accumulate_twice_nan :
    (accumulate (accumulate [] [nanPoint]).points_seen [nanPoint]).new_points_seen.length = 1 ∧
      (accumulate [] [nanPoint]).points_seen.length = 1 ∧
      (accumulate (accumulate [] [nanPoint]).points_seen [nanPoint]).points_seen.length = 2 := by
  decide

/-- C2 (amended): when every point of the query result compares equal to itself (no
coordinate is a NaN), running the accumulation step twice in a row with that query result
gives an empty newly-seen list the second time and leaves `points_seen` as the first step
left it, whatever `points_seen` was. -/
theorem accumulate_twice_same_query {Tp : Type} [BEq Tp]
    (points_seen query : List (Point3_ Tp)) (hrefl : ∀ p ∈ query, p.eq p = true) :
    (accumulate (accumulate points_seen query).points_seen query).new_points_seen = [] ∧
      (accumulate (accumulate points_seen query).points_seen query).points_seen
        = (accumulate points_seen query).points_seen := by
  have hnil := filter_seen_again points_seen query hrefl
  constructor
  · rw [accumulate_new_filter, hnil]
  · rw [accumulate_seen_filter (accumulate points_seen query).points_seen, hnil,
      List.append_nil]

theorem accumulate_twice_same_query_witness :
    (accumulate (accumulate [(⟨1, 2, 3⟩ : Point3_ Int)] [⟨1, 2, 3⟩, ⟨4, 5, 6⟩]).points_seen
        [⟨1, 2, 3⟩, ⟨4, 5, 6⟩]).new_points_seen = [] ∧
      (accumulate (accumulate [(⟨1, 2, 3⟩ : Point3_ Int)] [⟨1, 2, 3⟩, ⟨4, 5, 6⟩]).points_seen
        [⟨1, 2, 3⟩, ⟨4, 5, 6⟩]).points_seen
        = (accumulate [(⟨1, 2, 3⟩ : Point3_ Int)] [⟨1, 2, 3⟩, ⟨4, 5, 6⟩]).points_seen :=
  accumulate_twice_same_query [⟨1, 2, 3⟩] [⟨1, 2, 3⟩, ⟨4, 5, 6⟩] (by decide)

/-! ## The first pass of a session -/

/-- C3 (counterexample): a session whose start pose sees the one point `(1, 2, 3)`. The
visible set is not empty, yet the first pass through the loop does not report it: the
newly-seen list is not the visible set and the printed count is not its size. -/
theorem first_pass_not_all_visible :
    ¬ (onePointQuery ⟨0, 0, 0⟩ 0 0 0 ≠ [] →
        (loopAccumulate onePointQuery (mainInit onePointQuery ⟨0, 0, 0⟩ 0 0 0)).1.new_points_seen
            = onePointQuery ⟨0, 0, 0⟩ 0 0 0 ∧
          (loopAccumulate onePointQuery (mainInit onePointQuery ⟨0, 0, 0⟩ 0 0 0)).1.printed_new
            = (onePointQuery ⟨0, 0, 0⟩ 0 0 0).length) := by
  decide

/-- C3 (amended): the query at the start pose seeds `points_seen` with everything visible
from there, and, when every point visible from the start pose compares equal to itself (no
coordinate is a NaN), the first pass through the loop, which queries the start pose again,
reports nothing new: it prints `new: 0` and `total:` the number of points visible from the
start pose, and `points_seen` stays the seed. -/
theorem first_pass_reports_nothing {Tp : Type} [BEq Tp]
    (getPointsFromPos : Point3_ Tp → Tp → Tp → Tp → List (Point3_ Tp))
    (start_position : Point3_ Tp) (yaw pitch roll : Tp)
    (hrefl : ∀ p ∈ getPointsFromPos start_position yaw pitch roll, p.eq p = true) :
    (mainInit getPointsFromPos start_position yaw pitch roll).points_seen
        = getPointsFromPos start_position yaw pitch roll ∧
      (loopAccumulate getPointsFromPos
          (mainInit getPointsFromPos start_position yaw pitch roll)).1.new_points_seen = [] ∧
      (loopAccumulate getPointsFromPos
          (mainInit getPointsFromPos start_position yaw pitch roll)).1.printed_new = 0 ∧
      (loopAccumulate getPointsFromPos
          (mainInit getPointsFromPos start_position yaw pitch roll)).1.printed_total
        = (getPointsFromPos start_position yaw pitch roll).length ∧
      (loopAccumulate getPointsFromPos
          (mainInit getPointsFromPos start_position yaw pitch roll)).2.points_seen
        = getPointsFromPos start_position yaw pitch roll := by
  have hnil : (getPointsFromPos start_position yaw pitch roll).filter
      (fun p => !found (getPointsFromPos start_position yaw pitch roll) p) = [] := by
    rw [List.filter_eq_nil_iff]
    intro p hp
    simp [found_of_mem _ p hp (hrefl p hp)]
  have hloop : eraseLoop (getPointsFromPos start_position yaw pitch roll) []
      (getPointsFromPos start_position yaw pitch roll) = [] := by
    rw [eraseLoop_eq_filter, hnil]
    rfl
  simp [loopAccumulate, mainInit, accumulate, hloop]

theorem first_pass_reports_nothing_witness :
    (mainInit onePointQuery ⟨0, 0, 0⟩ 0 0 0).points_seen = onePointQuery ⟨0, 0, 0⟩ 0 0 0 ∧
      (loopAccumulate onePointQuery
          (mainInit onePointQuery ⟨0, 0, 0⟩ 0 0 0)).1.new_points_seen = [] ∧
      (loopAccumulate onePointQuery (mainInit onePointQuery ⟨0, 0, 0⟩ 0 0 0)).1.printed_new = 0 ∧
      (loopAccumulate onePointQuery (mainInit onePointQuery ⟨0, 0, 0⟩ 0 0 0)).1.printed_total
        = (onePointQuery ⟨0, 0, 0⟩ 0 0 0).length ∧
      (loopAccumulate onePointQuery (mainInit onePointQuery ⟨0, 0, 0⟩ 0 0 0)).2.points_seen
        = onePointQuery ⟨0, 0, 0⟩ 0 0 0 :=
  first_pass_reports_nothing onePointQuery ⟨0, 0, 0⟩ 0 0 0 (by decide)

/-! ## Invariants of a session -/

/-- C5 (counterexample): the cloud is the one point `(NaN, 0, 0)` and every query result,
the seeding one included, is that point once. After two passes `points_seen` holds three
points, more than the one distinct point of the cloud. -/
theorem points_seen_unbounded_nan :
    (runSteps [nanPoint] ([[nanPoint], [nanPoint]].take 2)).length = 3 ∧
      [nanPoint].length = 1 := by
  decide

/-- C5 (amended): if every point of the cloud compares equal to itself (no coordinate is a
NaN), and every query result of the session (the seeding one included) is free of
duplicates and made of points of the cloud, then after any number of passes `points_seen`
is no longer than the number of distinct points of the cloud. -/
theorem points_seen_bounded {Tp : Type} [DecidableEq Tp] [BEq Tp]
    (cloud seed : List (Point3_ Tp)) (queries : List (List (Point3_ Tp)))
    (hrefl : ∀ p ∈ cloud, p.eq p = true) (hseed : seed.Nodup) (hseedCloud : seed ⊆ cloud)
    (hqueries : ∀ query ∈ queries, query.Nodup ∧ query ⊆ cloud) (k : Nat) :
    (runSteps seed (queries.take k)).length ≤ cloud.dedup.length := by
  obtain ⟨hnodup, hsub⟩ := runSteps_bounded_of_refl cloud seed (queries.take k) hrefl hseed
    hseedCloud (fun query hmem => hqueries query (List.mem_of_mem_take hmem))
  rw [← List.card_toFinset cloud, ← List.toFinset_card_of_nodup hnodup]
  exact Finset.card_le_card (fun p hp => List.mem_toFinset.2 (hsub (List.mem_toFinset.1 hp)))

theorem points_seen_bounded_witness :
    (runSteps [(⟨1, 2, 3⟩ : Point3_ Int)] ([[⟨1, 2, 3⟩, ⟨4, 5, 6⟩], [⟨4, 5, 6⟩]].take 2)).length
      ≤ ([⟨1, 2, 3⟩, ⟨4, 5, 6⟩, ⟨1, 2, 3⟩, ⟨7, 8, 9⟩] : List (Point3_ Int)).dedup.length :=
  points_seen_bounded [⟨1, 2, 3⟩, ⟨4, 5, 6⟩, ⟨1, 2, 3⟩, ⟨7, 8, 9⟩] [⟨1, 2, 3⟩]
    [[⟨1, 2, 3⟩, ⟨4, 5, 6⟩], [⟨4, 5, 6⟩]] (by decide) (by decide) (by decide) (by decide) 2

/-- C6: the value of `points_seen` before a pass is a leading part of its value after the
pass, so nothing is removed, replaced or reordered; and over a session the value reached
after some passes is a leading part of every later value, so the length never decreases. -/
theorem points_seen_grows {Tp : Type} [DecidableEq Tp] (points_seen query : List (Point3_ Tp))
    (earlier later : List (List (Point3_ Tp))) :
    points_seen <+: (accumulate points_seen query).points_seen ∧
      points_seen.length ≤ (accumulate points_seen query).points_seen.length ∧
      runSteps points_seen earlier <+: runSteps points_seen (earlier ++ later) ∧
      (runSteps points_seen earlier).length ≤ (runSteps points_seen (earlier ++ later)).length := by
  have hstep : points_seen <+: (accumulate points_seen query).points_seen := by
    rw [accumulate_seen]
    exact List.prefix_append _ _
  have hrun : runSteps points_seen earlier <+: runSteps points_seen (earlier ++ later) := by
    rw [runSteps_append]
    exact runSteps_extends _ later
  exact ⟨hstep, hstep.length_le, hrun, hrun.length_le⟩

/-! ## What counts as already seen -/

/-- C7 (counterexample): `twinLandmark` is another landmark than `seenLandmark` and has not
been reported, but it has the coordinates of `seenLandmark`; the pass does not report it
and `points_seen` stays as it was. -/
theorem twin_landmark_not_reported :
    seenLandmark.id ≠ twinLandmark.id ∧
      seenLandmark.position = twinLandmark.position ∧
      twinLandmark.position ∉
        (accumulate ([seenLandmark].map Landmark.position)
          ([twinLandmark].map Landmark.position)).new_points_seen ∧
      (accumulate ([seenLandmark].map Landmark.position)
          ([twinLandmark].map Landmark.position)).points_seen
        = [seenLandmark].map Landmark.position := by
  decide

/-- C7 (amended): the comparison is by coordinates. A landmark of the query result whose
coordinates equal those of an already seen landmark is not reported as newly visible and
`points_seen` gets no further copy of its coordinates, whichever landmark it is. -/
theorem seen_coordinates_not_reported {Tp : Type} [DecidableEq Tp]
    (seen query : List (Landmark Tp)) (l : Landmark Tp)
    (hseen : ∃ s ∈ seen, s.position = l.position) :
    l.position ∉ (accumulate (seen.map Landmark.position)
        (query.map Landmark.position)).new_points_seen ∧
      (accumulate (seen.map Landmark.position) (query.map Landmark.position)).points_seen.count
          l.position
        = (seen.map Landmark.position).count l.position := by
  have hmem : l.position ∈ seen.map Landmark.position := by
    obtain ⟨s, hs, he⟩ := hseen
    exact List.mem_map.2 ⟨s, hs, he⟩
  have hnot : l.position ∉ (query.map Landmark.position).filter
      (fun p => decide (p ∉ seen.map Landmark.position)) := by
    intro h
    have := (List.mem_filter.1 h).2
    simp [hmem] at this
  constructor
  · rw [accumulate_new]
    exact hnot
  · rw [accumulate_seen, List.count_append, List.count_eq_zero.2 hnot, Nat.add_zero]

theorem seen_coordinates_not_reported_witness :
    twinLandmark.position ∉ (accumulate ([seenLandmark].map Landmark.position)
        ([twinLandmark, ⟨2, ⟨4, 5, 6⟩⟩].map Landmark.position)).new_points_seen ∧
      (accumulate ([seenLandmark].map Landmark.position)
          ([twinLandmark, ⟨2, ⟨4, 5, 6⟩⟩].map Landmark.position)).points_seen.count
          twinLandmark.position
        = ([seenLandmark].map Landmark.position).count twinLandmark.position :=
  seen_coordinates_not_reported [seenLandmark] [twinLandmark, ⟨2, ⟨4, 5, 6⟩⟩] twinLandmark
    ⟨seenLandmark, by decide, by decide⟩

/-! ## Lemmas on the text written by `saveMap` -/

theorem fieldsFrom_observationsLoop {R : Type} [Inhabited R]
    (observations : List (KeyFrame R × Nat)) (cur : List (Tok R)) :
    fieldsFrom cur (observationsLoop observations)
      = cur :: (observations.filter (fun obs => !obs.1.imageEmpty)).flatMap tripleFields := by
  induction observations generalizing cur with
  | nil => simp [observationsLoop, fieldsFrom]
  | cons obs rest ih =>
    cases h : obs.1.imageEmpty
    · simp [observationsLoop, observationBody, h, fieldsFrom, ih, tripleFields]
    · simp [observationsLoop, observationBody, h, ih]

theorem fields_mapPointRow {R : Type} [Inhabited R]
    (UpdateNormalAndDepth : MapPoint R → MapPoint R) (p : MapPoint R) :
    fields (mapPointRow UpdateNormalAndDepth p)
      = leadingFields UpdateNormalAndDepth p
        ++ ((UpdateNormalAndDepth p).observations.filter
              (fun obs => !obs.1.imageEmpty)).flatMap tripleFields := by
  simp [fields, mapPointRow, fieldsFrom, fieldsFrom_observationsLoop, leadingFields]

theorem length_flatMap_tripleFields {R : Type} [Inhabited R]
    (observations : List (KeyFrame R × Nat)) :
    (observations.flatMap tripleFields).length = 3 * observations.length := by
  induction observations with
  | nil => rfl
  | cons obs rest ih =>
    simp only [List.flatMap_cons, List.length_append, ih, List.length_cons]
    simp [tripleFields]
    omega

theorem endl_not_mem_observationsLoop {R : Type} [Inhabited R]
    (observations : List (KeyFrame R × Nat)) : Tok.endl ∉ observationsLoop observations := by
  induction observations with
  | nil => simp [observationsLoop]
  | cons obs rest ih =>
    cases h : obs.1.imageEmpty <;> simp [observationsLoop, observationBody, h, ih]

theorem endl_not_mem_mapPointRow {R : Type} [Inhabited R]
    (UpdateNormalAndDepth : MapPoint R → MapPoint R) (p : MapPoint R) :
    Tok.endl ∉ mapPointRow UpdateNormalAndDepth p := by
  simp [mapPointRow, endl_not_mem_observationsLoop]

theorem rowsFrom_append_endl {R : Type} (row cur rest : List (Tok R))
    (h : Tok.endl ∉ row) :
    rowsFrom cur (row ++ Tok.endl :: rest) = (cur ++ row) :: rowsFrom [] rest := by
  induction row generalizing cur with
  | nil => simp [rowsFrom]
  | cons t ts ih =>
    have ht : Tok.endl ∉ ts := fun hm => h (List.mem_cons_of_mem _ hm)
    cases t with
    | endl => exact absurd (List.mem_cons_self _ _) h
    | num v => simp [rowsFrom, ih _ ht]
    | frameId n => simp [rowsFrom, ih _ ht]
    | comma => simp [rowsFrom, ih _ ht]

theorem rows_saveMap {R : Type} [Inhabited R]
    (UpdateNormalAndDepth : MapPoint R → MapPoint R) (points : List (Option (MapPoint R))) :
    rows (saveMap UpdateNormalAndDepth points)
      = ((points.filterMap id).filter (fun p => !p.isBad)).map
          (mapPointRow UpdateNormalAndDepth) := by
  induction points with
  | nil => simp [rows, saveMap, rowsFrom]
  | cons q rest ih =>
    cases q with
    | none => simpa [saveMap] using ih
    | some p =>
      cases hb : p.isBad
      · have hsplit := rowsFrom_append_endl (mapPointRow UpdateNormalAndDepth p) []
          (saveMap UpdateNormalAndDepth rest) (endl_not_mem_mapPointRow UpdateNormalAndDepth p)
        simp only [rows] at ih
        simp [rows, saveMap, hb, hsplit, ih]
      · simpa [saveMap, hb] using ih

/-! ## The rows written by `saveMap` -/

/-- C8: every row written by `saveMap` is the row of one of the map points and splits at
its commas into the eight fields x, y, z, minDistance, maxDistance, normalX, normalY,
normalZ, in that order, followed by complete triples (frameId, keypointX, keypointY) and
nothing else: it has `8 + 3 * k` fields, `k` being the number of triples. -/
theorem saveMap_rows_well_formed {R : Type} [Inhabited R]
    (UpdateNormalAndDepth : MapPoint R → MapPoint R) (points : List (Option (MapPoint R)))
    (row : List (Tok R)) (hrow : row ∈ rows (saveMap UpdateNormalAndDepth points)) :
    ∃ (p : MapPoint R) (triples : List (KeyFrame R × Nat)),
      some p ∈ points ∧
      fields row = leadingFields UpdateNormalAndDepth p ++ triples.flatMap tripleFields ∧
      (fields row).length = 8 + 3 * triples.length := by
  rw [rows_saveMap, List.mem_map] at hrow
  obtain ⟨p, hp, rfl⟩ := hrow
  have hmem : some p ∈ points := by
    have h := (List.mem_filter.1 hp).1
    simpa using h
  refine ⟨p, (UpdateNormalAndDepth p).observations.filter (fun obs => !obs.1.imageEmpty),
    hmem, fields_mapPointRow UpdateNormalAndDepth p, ?_⟩
  rw [fields_mapPointRow, List.length_append, length_flatMap_tripleFields]
  rfl

theorem saveMap_rows_well_formed_witness :
    ∃ (p : MapPoint Int) (triples : List (KeyFrame Int × Nat)),
      some p ∈ [some twoFramePoint, none, some badPoint, some unobservedPoint] ∧
      fields (mapPointRow id twoFramePoint)
        = leadingFields id p ++ triples.flatMap tripleFields ∧
      (fields (mapPointRow id twoFramePoint)).length = 8 + 3 * triples.length :=
  saveMap_rows_well_formed id [some twoFramePoint, none, some badPoint, some unobservedPoint]
    (mapPointRow id twoFramePoint) (by decide)

/-- C9 (counterexample): `twoFramePoint` has two observations, one of them from a key
frame whose image is empty; the row that `saveMap` writes for it holds one triple. -/
theorem empty_image_observation_dropped :
    rows (saveMap id [some twoFramePoint]) = [mapPointRow id twoFramePoint] ∧
      (id twoFramePoint).observations.length = 2 ∧
      tripleCount (mapPointRow id twoFramePoint) = 1 ∧
      tripleCount (mapPointRow id twoFramePoint) ≠ (id twoFramePoint).observations.length := by
  decide

/-- C9 (amended): the row written for a saved landmark holds exactly one triple
(frameId, keypointX, keypointY) for each of its observations whose key frame has a
non-empty image, so the number of triples is the number of those observations. -/
theorem saveMap_triples_of_imaged_observations {R : Type} [Inhabited R]
    (UpdateNormalAndDepth : MapPoint R → MapPoint R) (points : List (Option (MapPoint R)))
    (p : MapPoint R) (hp : some p ∈ points) (hgood : p.isBad = false) :
    mapPointRow UpdateNormalAndDepth p ∈ rows (saveMap UpdateNormalAndDepth points) ∧
      (fields (mapPointRow UpdateNormalAndDepth p)).drop 8
        = ((UpdateNormalAndDepth p).observations.filter
            (fun obs => !obs.1.imageEmpty)).flatMap tripleFields ∧
      tripleCount (mapPointRow UpdateNormalAndDepth p)
        = ((UpdateNormalAndDepth p).observations.filter
            (fun obs => !obs.1.imageEmpty)).length ∧
      ((∀ obs ∈ (UpdateNormalAndDepth p).observations, obs.1.imageEmpty = false) →
        tripleCount (mapPointRow UpdateNormalAndDepth p)
          = (UpdateNormalAndDepth p).observations.length) := by
  have hcount : tripleCount (mapPointRow UpdateNormalAndDepth p)
      = ((UpdateNormalAndDepth p).observations.filter
          (fun obs => !obs.1.imageEmpty)).length := by
    unfold tripleCount
    rw [fields_mapPointRow, List.length_append, length_flatMap_tripleFields]
    have h8 : (leadingFields UpdateNormalAndDepth p).length = 8 := rfl
    omega
  refine ⟨?_, ?_, hcount, ?_⟩
  · rw [rows_saveMap]
    refine List.mem_map.2 ⟨p, List.mem_filter.2 ⟨?_, by simp [hgood]⟩, rfl⟩
    simpa using hp
  · rw [fields_mapPointRow]
    have h8 : (leadingFields UpdateNormalAndDepth p).length = 8 := rfl
    rw [List.drop_append_of_le_length (Nat.le_of_eq h8.symm), ← h8, List.drop_length]
    rfl
  · intro hall
    rw [hcount, List.filter_eq_self.2]
    intro obs hobs
    simp [hall obs hobs]

theorem saveMap_triples_of_imaged_observations_witness :
    mapPointRow id twoFramePoint
        ∈ rows (saveMap id [some twoFramePoint, none, some badPoint, some unobservedPoint]) ∧
      (fields (mapPointRow id twoFramePoint)).drop 8
        = ((id twoFramePoint).observations.filter
            (fun obs => !obs.1.imageEmpty)).flatMap tripleFields ∧
      tripleCount (mapPointRow id twoFramePoint)
        = ((id twoFramePoint).observations.filter (fun obs => !obs.1.imageEmpty)).length ∧
      ((∀ obs ∈ (id twoFramePoint).observations, obs.1.imageEmpty = false) →
        tripleCount (mapPointRow id twoFramePoint) = (id twoFramePoint).observations.length) :=
  saveMap_triples_of_imaged_observations id
    [some twoFramePoint, none, some badPoint, some unobservedPoint] twoFramePoint
    (by decide) (by decide)

/-- C10: the rows written by `saveMap` are, in order, the rows of the non-null, non-bad
map points of `GetAllMapPoints()` in the order of that vector, one row for each. -/
theorem saveMap_rows_in_order {R : Type} [Inhabited R]
    (UpdateNormalAndDepth : MapPoint R → MapPoint R) (points : List (Option (MapPoint R))) :
    rows (saveMap UpdateNormalAndDepth points)
        = ((points.filterMap id).filter (fun p => !p.isBad)).map
            (mapPointRow UpdateNormalAndDepth) ∧
      (rows (saveMap UpdateNormalAndDepth points)).length
        = ((points.filterMap id).filter (fun p => !p.isBad)).length := by
  refine ⟨rows_saveMap UpdateNormalAndDepth points, ?_⟩
  rw [rows_saveMap, List.length_map]

/-! ## Failure of `open` in `saveMap` -/

/-- C11 (counterexample): the target file cannot be opened and the map holds a good point;
the call returns as any other call does, raises no error and prints `saved map`. -/
theorem saveMap_unwritable_returns :
    (saveMapTo false id [some twoFramePoint]).completion = Completion.returned ∧
      (saveMapTo false id [some twoFramePoint]).completion ≠ Completion.ioError ∧
      (saveMapTo false id [some twoFramePoint]).console
        = (saveMapTo true id [some twoFramePoint]).console :=
  ⟨rfl, by decide, rfl⟩

/-- C11 (amended): `saveMap` hands nothing to its caller and raises nothing, whether the
target file could be opened or not; when it cannot be opened no row is written, and when
it can the file holds the rows of the map. -/
theorem saveMap_never_fails {R : Type} [Inhabited R] (canOpen : Bool)
    (UpdateNormalAndDepth : MapPoint R → MapPoint R) (points : List (Option (MapPoint R))) :
    (saveMapTo canOpen UpdateNormalAndDepth points).completion = Completion.returned ∧
      (saveMapTo false UpdateNormalAndDepth points).fileText = none ∧
      (saveMapTo true UpdateNormalAndDepth points).fileText
        = some (saveMap UpdateNormalAndDepth points) :=
  ⟨rfl, rfl, rfl⟩

/-! ## The session of the spec -/

/-- C12: on a `Finished` session a `Step` is rejected with `SessionClosed` and leaves the
session, and so its seen-set, unchanged; after a `Reset` the `Step` is accepted. -/
theorem step_after_finished_rejected {Tp : Type} [DecidableEq Tp] (s : Session Tp)
    (query : List (Point3_ Tp)) (hfinished : s.phase = SessionPhase.Finished) :
    (s.Step query).1 = Except.error SessionError.SessionClosed ∧
      (s.Step query).2 = s ∧
      (s.Step query).2.seenSet = s.seenSet ∧
      (s.Reset.Step query).1 = Except.ok (query, query) ∧
      (s.Reset.Step query).2.phase = SessionPhase.Active := by
  have hnew : (accumulate ([] : List (Point3_ Tp)) query).new_points_seen = query := by
    rw [accumulate_new]
    simp
  have hseen : (accumulate ([] : List (Point3_ Tp)) query).points_seen = query := by
    rw [accumulate_seen]
    simp
  refine ⟨?_, ?_, ?_, ?_, ?_⟩
  · simp [Session.Step, hfinished]
  · simp [Session.Step, hfinished]
  · simp [Session.Step, hfinished]
  · simp [Session.Step, Session.Reset, hnew, hseen]
  · simp [Session.Step, Session.Reset]

theorem step_after_finished_rejected_witness :
    ((Session.FinishScan ⟨SessionPhase.Active, [(⟨1, 2, 3⟩ : Point3_ Int)]⟩).Step
        [⟨4, 5, 6⟩]).1 = Except.error SessionError.SessionClosed ∧
      ((Session.FinishScan ⟨SessionPhase.Active, [(⟨1, 2, 3⟩ : Point3_ Int)]⟩).Step
        [⟨4, 5, 6⟩]).2 = Session.FinishScan ⟨SessionPhase.Active, [⟨1, 2, 3⟩]⟩ ∧
      ((Session.FinishScan ⟨SessionPhase.Active, [(⟨1, 2, 3⟩ : Point3_ Int)]⟩).Step
        [⟨4, 5, 6⟩]).2.seenSet
        = (Session.FinishScan ⟨SessionPhase.Active, [(⟨1, 2, 3⟩ : Point3_ Int)]⟩).seenSet ∧
      ((Session.FinishScan ⟨SessionPhase.Active, [(⟨1, 2, 3⟩ : Point3_ Int)]⟩).Reset.Step
        [⟨4, 5, 6⟩]).1 = Except.ok ([⟨4, 5, 6⟩], [⟨4, 5, 6⟩]) ∧
      ((Session.FinishScan ⟨SessionPhase.Active, [(⟨1, 2, 3⟩ : Point3_ Int)]⟩).Reset.Step
        [⟨4, 5, 6⟩]).2.phase = SessionPhase.Active :=
  step_after_finished_rejected (Session.FinishScan ⟨SessionPhase.Active, [⟨1, 2, 3⟩]⟩)
    [⟨4, 5, 6⟩] rfl

/-! ## Lemmas on the keys -/

theorem keySwitch_escapeKey {Tp : Type} [Ring Tp] (cos sin : Tp → Tp)
    (rotateScale movingScale : Tp) (st : SimState Tp) :
    keySwitch cos sin rotateScale movingScale escapeKey st = st := by
  have ha : ¬ escapeKey = 'a' := by decide
  have hd : ¬ escapeKey = 'd' := by decide
  have hw : ¬ escapeKey = 'w' := by decide
  have hs : ¬ escapeKey = 's' := by decide
  have hi : ¬ escapeKey = 'i' := by decide
  have hk : ¬ escapeKey = 'k' := by decide
  have hj : ¬ escapeKey = 'j' := by decide
  have hl : ¬ escapeKey = 'l' := by decide
  simp [keySwitch, ha, hd, hw, hs, hi, hk, hj, hl]

theorem keySwitch_pose_congr {Tp : Type} [Ring Tp] (cos sin : Tp → Tp)
    (rotateScale movingScale : Tp) (ch : Char) (s₁ s₂ : SimState Tp) (h : s₁.pose = s₂.pose) :
    (keySwitch cos sin rotateScale movingScale ch s₁).pose
      = (keySwitch cos sin rotateScale movingScale ch s₂).pose := by
  simp only [SimState.pose, Prod.mk.injEq] at h
  obtain ⟨h1, h2, h3, h4⟩ := h
  unfold keySwitch
  split_ifs <;> simp [SimState.pose, h1, h2, h3, h4]

theorem applyKeys_pose_congr {Tp : Type} [Ring Tp] (cos sin : Tp → Tp)
    (rotateScale movingScale : Tp) (keys : List Char) (s₁ s₂ : SimState Tp)
    (h : s₁.pose = s₂.pose) :
    (applyKeys cos sin rotateScale movingScale s₁ keys).pose
      = (applyKeys cos sin rotateScale movingScale s₂ keys).pose := by
  induction keys generalizing s₁ s₂ with
  | nil => exact h
  | cons ch rest ih =>
    exact ih _ _ (keySwitch_pose_congr cos sin rotateScale movingScale ch s₁ s₂ h)

theorem loopAccumulate_pose {Tp : Type} [DecidableEq Tp]
    (getPointsFromPos : Point3_ Tp → Tp → Tp → Tp → List (Point3_ Tp)) (st : SimState Tp) :
    (loopAccumulate getPointsFromPos st).2.pose = st.pose := rfl

theorem mainLoop_cons_of_ne {Tp : Type} [Ring Tp] [DecidableEq Tp]
    (getPointsFromPos : Point3_ Tp → Tp → Tp → Tp → List (Point3_ Tp))
    (cos sin : Tp → Tp) (rotateScale movingScale : Tp) (ch : Char) (later : List Char)
    (hch : ¬ ch = escapeKey) (st : SimState Tp) :
    mainLoop getPointsFromPos cos sin rotateScale movingScale st (ch :: later)
      = { passes := (st, (loopAccumulate getPointsFromPos st).1)
            :: (mainLoop getPointsFromPos cos sin rotateScale movingScale
                (keySwitch cos sin rotateScale movingScale ch
                  (loopAccumulate getPointsFromPos st).2) later).passes
          final := (mainLoop getPointsFromPos cos sin rotateScale movingScale
                (keySwitch cos sin rotateScale movingScale ch
                  (loopAccumulate getPointsFromPos st).2) later).final
          ended := (mainLoop getPointsFromPos cos sin rotateScale movingScale
                (keySwitch cos sin rotateScale movingScale ch
                  (loopAccumulate getPointsFromPos st).2) later).ended } := by
  simp [mainLoop, hch]

theorem mainLoop_escape_run {Tp : Type} [Ring Tp] [DecidableEq Tp]
    (getPointsFromPos : Point3_ Tp → Tp → Tp → Tp → List (Point3_ Tp))
    (cos sin : Tp → Tp) (rotateScale movingScale : Tp) (before after : List Char)
    (hbefore : escapeKey ∉ before) (st : SimState Tp) :
    (mainLoop getPointsFromPos cos sin rotateScale movingScale st
        (before ++ escapeKey :: after)).ended = true ∧
      (mainLoop getPointsFromPos cos sin rotateScale movingScale st
        (before ++ escapeKey :: after)).passes.length = before.length + 1 ∧
      (mainLoop getPointsFromPos cos sin rotateScale movingScale st
        (before ++ escapeKey :: after)).final.pose
        = (applyKeys cos sin rotateScale movingScale st before).pose ∧
      (∃ last : SimState Tp,
        (mainLoop getPointsFromPos cos sin rotateScale movingScale st
          (before ++ escapeKey :: after)).passes.getLast?
          = some (last, (loopAccumulate getPointsFromPos last).1) ∧
        (mainLoop getPointsFromPos cos sin rotateScale movingScale st
          (before ++ escapeKey :: after)).final = (loopAccumulate getPointsFromPos last).2) ∧
      ∀ j, j ≤ before.length →
        ∃ start : SimState Tp,
          (mainLoop getPointsFromPos cos sin rotateScale movingScale st
            (before ++ escapeKey :: after)).passes[j]?
            = some (start, (loopAccumulate getPointsFromPos start).1) ∧
          start.pose = (applyKeys cos sin rotateScale movingScale st (before.take j)).pose := by
  induction before generalizing st with
  | nil =>
    refine ⟨by simp [mainLoop], by simp [mainLoop], ?_, ⟨st, ?_, ?_⟩, ?_⟩
    · simp [mainLoop, keySwitch_escapeKey, applyKeys]
      rfl
    · simp [mainLoop]
    · simp [mainLoop, keySwitch_escapeKey]
    · intro j hj
      have hj0 : j = 0 := by simpa using hj
      subst hj0
      exact ⟨st, by simp [mainLoop], rfl⟩
  | cons ch rest ih =>
    have hch : ¬ ch = escapeKey := fun e => hbefore (by simp [e])
    have hrest : escapeKey ∉ rest := fun hm => hbefore (List.mem_cons_of_mem _ hm)
    obtain ⟨h1, h2, h3, ⟨last, h4, h5⟩, h6⟩ := ih hrest
      (keySwitch cos sin rotateScale movingScale ch (loopAccumulate getPointsFromPos st).2)
    have hpose : (keySwitch cos sin rotateScale movingScale ch
        (loopAccumulate getPointsFromPos st).2).pose
        = (keySwitch cos sin rotateScale movingScale ch st).pose :=
      keySwitch_pose_congr cos sin rotateScale movingScale ch _ _
        (loopAccumulate_pose getPointsFromPos st)
    rw [List.cons_append, mainLoop_cons_of_ne getPointsFromPos cos sin rotateScale movingScale
      ch (rest ++ escapeKey :: after) hch st]
    refine ⟨h1, ?_, ?_, ⟨last, ?_, h5⟩, ?_⟩
    · simp [h2]
    · show (mainLoop getPointsFromPos cos sin rotateScale movingScale _ _).final.pose = _
      rw [h3]
      exact applyKeys_pose_congr cos sin rotateScale movingScale rest _ _ hpose
    · show List.getLast? (_ :: (mainLoop getPointsFromPos cos sin rotateScale movingScale
        _ _).passes) = _
      rw [List.getLast?_cons, h4]
      rfl
    · intro j hj
      cases j with
      | zero => exact ⟨st, by simp, rfl⟩
      | succ j =>
        obtain ⟨start, hs1, hs2⟩ := h6 j (by simpa using hj)
        refine ⟨start, ?_, ?_⟩
        · simpa using hs1
        · rw [hs2]
          exact applyKeys_pose_congr cos sin rotateScale movingScale (rest.take j) _ _ hpose

/-! ## The end of the exploration loop -/

theorem keySwitch_points_seen {Tp : Type} [Ring Tp] (cos sin : Tp → Tp)
    (rotateScale movingScale : Tp) (ch : Char) (st : SimState Tp) :
    (keySwitch cos sin rotateScale movingScale ch st).points_seen = st.points_seen := by
  unfold keySwitch
  split_ifs <;> rfl

theorem loopAccumulate_eq {Tp : Type} [DecidableEq Tp]
    (getPointsFromPos : Point3_ Tp → Tp → Tp → Tp → List (Point3_ Tp)) (start : SimState Tp) :
    (loopAccumulate getPointsFromPos start).1
      = { new_points_seen := (getPointsFromPos start.current_position start.current_yaw
              start.current_pitch start.current_roll).filter
                (fun p => decide (p ∉ start.points_seen))
          points_seen := start.points_seen ++ (getPointsFromPos start.current_position
              start.current_yaw start.current_pitch start.current_roll).filter
                (fun p => decide (p ∉ start.points_seen))
          printed_new := ((getPointsFromPos start.current_position start.current_yaw
              start.current_pitch start.current_roll).filter
                (fun p => decide (p ∉ start.points_seen))).length
          printed_total := (start.points_seen ++ (getPointsFromPos start.current_position
              start.current_yaw start.current_pitch start.current_roll).filter
                (fun p => decide (p ∉ start.points_seen))).length } := by
  simp [loopAccumulate, accumulate, eraseLoop_eq]

theorem mainLoop_escape_chain {Tp : Type} [Ring Tp] [DecidableEq Tp]
    (getPointsFromPos : Point3_ Tp → Tp → Tp → Tp → List (Point3_ Tp))
    (cos sin : Tp → Tp) (rotateScale movingScale : Tp) (before after : List Char)
    (hbefore : escapeKey ∉ before) (st : SimState Tp) :
    (mainLoop getPointsFromPos cos sin rotateScale movingScale st
        (before ++ escapeKey :: after)).passes[0]?
        = some (st, (loopAccumulate getPointsFromPos st).1) ∧
      ∀ (j : Nat) (earlier : SimState Tp) (result : StepResult Tp),
        (mainLoop getPointsFromPos cos sin rotateScale movingScale st
          (before ++ escapeKey :: after)).passes[j]? = some (earlier, result) →
        ∀ (next : SimState Tp) (nextResult : StepResult Tp),
          (mainLoop getPointsFromPos cos sin rotateScale movingScale st
            (before ++ escapeKey :: after)).passes[j + 1]? = some (next, nextResult) →
          next.points_seen = result.points_seen := by
  induction before generalizing st with
  | nil =>
    refine ⟨by simp [mainLoop], ?_⟩
    intro j earlier result _ next nextResult hnext
    simp [mainLoop] at hnext
  | cons ch rest ih =>
    have hch : ¬ ch = escapeKey := fun e => hbefore (by simp [e])
    have hrest : escapeKey ∉ rest := fun hm => hbefore (List.mem_cons_of_mem _ hm)
    obtain ⟨h0, hchain⟩ := ih hrest
      (keySwitch cos sin rotateScale movingScale ch (loopAccumulate getPointsFromPos st).2)
    rw [List.cons_append, mainLoop_cons_of_ne getPointsFromPos cos sin rotateScale movingScale
      ch (rest ++ escapeKey :: after) hch st]
    refine ⟨by simp, ?_⟩
    intro j earlier result hj next nextResult hnext
    cases j with
    | zero =>
      have he : (st, (loopAccumulate getPointsFromPos st).1) = (earlier, result) := by
        simpa using hj
      have hn : (keySwitch cos sin rotateScale movingScale ch
          (loopAccumulate getPointsFromPos st).2,
          (loopAccumulate getPointsFromPos (keySwitch cos sin rotateScale movingScale ch
            (loopAccumulate getPointsFromPos st).2)).1) = (next, nextResult) := by
        have h1 : (mainLoop getPointsFromPos cos sin rotateScale movingScale
            (keySwitch cos sin rotateScale movingScale ch (loopAccumulate getPointsFromPos st).2)
            (rest ++ escapeKey :: after)).passes[0]? = some (next, nextResult) := by
          simpa using hnext
        rw [h0] at h1
        exact Option.some.inj h1
      rw [← (Prod.mk.inj hn).1, ← (Prod.mk.inj he).2, keySwitch_points_seen]
      rfl
    | succ j =>
      exact hchain j earlier result (by simpa using hj) next nextResult (by simpa using hnext)

/-- C14: when the first escape key of the input is its `n`-th key (`n - 1` keys without
escape come before it), the loop is left there after exactly `n` passes through the
accumulation step, one before each key read. Pass `j + 1` starts from the pose that the
first `j` keys make of the start pose; it queries `getPointsFromPos` at that pose, reports
the points of the answer that are not in `points_seen` and appends them. The first pass
starts from the state the loop was entered with, and each later pass from the `points_seen`
the pass before it left. The escape key changes nothing: the final state has the
`points_seen` and the pose of the last pass, which is the pose that the keys before the
escape key gave. -/
theorem mainLoop_ends_at_first_escape {Tp : Type} [Ring Tp] [DecidableEq Tp]
    (getPointsFromPos : Point3_ Tp → Tp → Tp → Tp → List (Point3_ Tp))
    (cos sin : Tp → Tp) (rotateScale movingScale : Tp) (st : SimState Tp)
    (before after : List Char) (hbefore : escapeKey ∉ before) :
    (mainLoop getPointsFromPos cos sin rotateScale movingScale st
        (before ++ escapeKey :: after)).ended = true ∧
      (mainLoop getPointsFromPos cos sin rotateScale movingScale st
        (before ++ escapeKey :: after)).passes.length = before.length + 1 ∧
      (∀ j, j ≤ before.length →
        ∃ start : SimState Tp,
          (mainLoop getPointsFromPos cos sin rotateScale movingScale st
        (before ++ escapeKey :: after)).passes[j]?
            = some (start,
                { new_points_seen :=
                    (getPointsFromPos start.current_position start.current_yaw
                        start.current_pitch start.current_roll).filter
                      (fun p => decide (p ∉ start.points_seen))
                  points_seen :=
                    start.points_seen ++
                    (getPointsFromPos start.current_position start.current_yaw
                        start.current_pitch start.current_roll).filter
                      (fun p => decide (p ∉ start.points_seen))
                  printed_new :=
                    ((getPointsFromPos start.current_position start.current_yaw
                        start.current_pitch start.current_roll).filter
                      (fun p => decide (p ∉ start.points_seen))).length
                  printed_total :=
                    (start.points_seen ++
                    (getPointsFromPos start.current_position start.current_yaw
                        start.current_pitch start.current_roll).filter
                      (fun p => decide (p ∉ start.points_seen))).length }) ∧
          start.pose = (applyKeys cos sin rotateScale movingScale st (before.take j)).pose ∧
          (j = 0 → start = st) ∧
          ∀ (earlier : SimState Tp) (result : StepResult Tp),
            (mainLoop getPointsFromPos cos sin rotateScale movingScale st
        (before ++ escapeKey :: after)).passes[j]? = some (earlier, result) →
            ∀ (next : SimState Tp) (nextResult : StepResult Tp),
              (mainLoop getPointsFromPos cos sin rotateScale movingScale st
        (before ++ escapeKey :: after)).passes[j + 1]? = some (next, nextResult) →
              next.points_seen = result.points_seen) ∧
      (∀ s : SimState Tp, keySwitch cos sin rotateScale movingScale escapeKey s = s) ∧
      (mainLoop getPointsFromPos cos sin rotateScale movingScale st
        (before ++ escapeKey :: after)).final.pose
        = (applyKeys cos sin rotateScale movingScale st before).pose ∧
      ∃ (last : SimState Tp) (lastResult : StepResult Tp),
        (mainLoop getPointsFromPos cos sin rotateScale movingScale st
        (before ++ escapeKey :: after)).passes.getLast? = some (last, lastResult) ∧
        (mainLoop getPointsFromPos cos sin rotateScale movingScale st
        (before ++ escapeKey :: after)).final.points_seen = lastResult.points_seen ∧
        (mainLoop getPointsFromPos cos sin rotateScale movingScale st
        (before ++ escapeKey :: after)).final.pose = last.pose := by
  obtain ⟨h1, h2, h3, ⟨last, h4, h5⟩, h6⟩ := mainLoop_escape_run getPointsFromPos cos sin
    rotateScale movingScale before after hbefore st
  obtain ⟨hc0, hchain⟩ := mainLoop_escape_chain getPointsFromPos cos sin rotateScale
    movingScale before after hbefore st
  refine ⟨h1, h2, ?_, keySwitch_escapeKey cos sin rotateScale movingScale, h3,
    ⟨last, (loopAccumulate getPointsFromPos last).1, h4, by rw [h5]; rfl, by rw [h5]; rfl⟩⟩
  intro j hj
  obtain ⟨start, hs1, hs2⟩ := h6 j hj
  refine ⟨start, ?_, hs2, ?_, hchain j⟩
  · rw [hs1, loopAccumulate_eq]
  · intro hj0
    subst hj0
    rw [hc0] at hs1
    exact ((Prod.mk.inj (Option.some.inj hs1)).1).symm

theorem mainLoop_ends_at_first_escape_witness :
    (mainLoop onePointQuery (fun _ => 1) (fun _ => 0) 1 2 (mainInit onePointQuery ⟨0, 0, 0⟩ 0 0 0)
        (['i', 'a'] ++ escapeKey :: ['k'])).ended = true ∧
      (mainLoop onePointQuery (fun _ => 1) (fun _ => 0) 1 2 (mainInit onePointQuery ⟨0, 0, 0⟩ 0 0 0)
        (['i', 'a'] ++ escapeKey :: ['k'])).passes.length = ['i', 'a'].length + 1 ∧
      (∀ j, j ≤ ['i', 'a'].length →
        ∃ start : SimState Int,
          (mainLoop onePointQuery (fun _ => 1) (fun _ => 0) 1 2 (mainInit onePointQuery ⟨0, 0, 0⟩ 0 0 0)
        (['i', 'a'] ++ escapeKey :: ['k'])).passes[j]?
            = some (start,
                { new_points_seen :=
                    (onePointQuery start.current_position start.current_yaw
                        start.current_pitch start.current_roll).filter
                      (fun p => decide (p ∉ start.points_seen))
                  points_seen :=
                    start.points_seen ++
                    (onePointQuery start.current_position start.current_yaw
                        start.current_pitch start.current_roll).filter
                      (fun p => decide (p ∉ start.points_seen))
                  printed_new :=
                    ((onePointQuery start.current_position start.current_yaw
                        start.current_pitch start.current_roll).filter
                      (fun p => decide (p ∉ start.points_seen))).length
                  printed_total :=
                    (start.points_seen ++
                    (onePointQuery start.current_position start.current_yaw
                        start.current_pitch start.current_roll).filter
                      (fun p => decide (p ∉ start.points_seen))).length }) ∧
          start.pose = (applyKeys (fun _ => 1) (fun _ => 0) 1 2 (mainInit onePointQuery ⟨0, 0, 0⟩ 0 0 0) (['i', 'a'].take j)).pose ∧
          (j = 0 → start = (mainInit onePointQuery ⟨0, 0, 0⟩ 0 0 0)) ∧
          ∀ (earlier : SimState Int) (result : StepResult Int),
            (mainLoop onePointQuery (fun _ => 1) (fun _ => 0) 1 2 (mainInit onePointQuery ⟨0, 0, 0⟩ 0 0 0)
        (['i', 'a'] ++ escapeKey :: ['k'])).passes[j]? = some (earlier, result) →
            ∀ (next : SimState Int) (nextResult : StepResult Int),
              (mainLoop onePointQuery (fun _ => 1) (fun _ => 0) 1 2 (mainInit onePointQuery ⟨0, 0, 0⟩ 0 0 0)
        (['i', 'a'] ++ escapeKey :: ['k'])).passes[j + 1]? = some (next, nextResult) →
              next.points_seen = result.points_seen) ∧
      (∀ s : SimState Int, keySwitch (fun _ => 1) (fun _ => 0) 1 2 escapeKey s = s) ∧
      (mainLoop onePointQuery (fun _ => 1) (fun _ => 0) 1 2 (mainInit onePointQuery ⟨0, 0, 0⟩ 0 0 0)
        (['i', 'a'] ++ escapeKey :: ['k'])).final.pose
        = (applyKeys (fun _ => 1) (fun _ => 0) 1 2 (mainInit onePointQuery ⟨0, 0, 0⟩ 0 0 0) ['i', 'a']).pose ∧
      ∃ (last : SimState Int) (lastResult : StepResult Int),
        (mainLoop onePointQuery (fun _ => 1) (fun _ => 0) 1 2 (mainInit onePointQuery ⟨0, 0, 0⟩ 0 0 0)
        (['i', 'a'] ++ escapeKey :: ['k'])).passes.getLast? = some (last, lastResult) ∧
        (mainLoop onePointQuery (fun _ => 1) (fun _ => 0) 1 2 (mainInit onePointQuery ⟨0, 0, 0⟩ 0 0 0)
        (['i', 'a'] ++ escapeKey :: ['k'])).final.points_seen = lastResult.points_seen ∧
        (mainLoop onePointQuery (fun _ => 1) (fun _ => 0) 1 2 (mainInit onePointQuery ⟨0, 0, 0⟩ 0 0 0)
        (['i', 'a'] ++ escapeKey :: ['k'])).final.pose = last.pose :=
  mainLoop_ends_at_first_escape onePointQuery (fun _ => 1) (fun _ => 0) 1 2
    (mainInit onePointQuery ⟨0, 0, 0⟩ 0 0 0) ['i', 'a'] ['k'] (by decide)

/-! ## Opposite keys -/

/-- C20: the keys `i` and `k` undo each other, and so do `j` and `l`: whatever the pose,
`movingScale`, `cos` and `sin` (those of the reals included), `i` followed by `k`, or `j`
followed by `l`, with the accumulation pass of the loop in between, brings
`current_position` back to its value; the same holds in the other order, and without the
pass the whole state is back. -/
theorem opposite_keys_cancel {Tp : Type} [Ring Tp] [DecidableEq Tp]
    (getPointsFromPos : Point3_ Tp → Tp → Tp → Tp → List (Point3_ Tp))
    (cos sin : Tp → Tp) (rotateScale movingScale : Tp) (st : SimState Tp) :
    (keySwitch cos sin rotateScale movingScale 'k' (loopAccumulate getPointsFromPos
        (keySwitch cos sin rotateScale movingScale 'i' st)).2).current_position
        = st.current_position ∧
      (keySwitch cos sin rotateScale movingScale 'l' (loopAccumulate getPointsFromPos
        (keySwitch cos sin rotateScale movingScale 'j' st)).2).current_position
        = st.current_position ∧
      (keySwitch cos sin rotateScale movingScale 'i' (loopAccumulate getPointsFromPos
        (keySwitch cos sin rotateScale movingScale 'k' st)).2).current_position
        = st.current_position ∧
      (keySwitch cos sin rotateScale movingScale 'j' (loopAccumulate getPointsFromPos
        (keySwitch cos sin rotateScale movingScale 'l' st)).2).current_position
        = st.current_position ∧
      keySwitch cos sin rotateScale movingScale 'k'
        (keySwitch cos sin rotateScale movingScale 'i' st) = st ∧
      keySwitch cos sin rotateScale movingScale 'l'
        (keySwitch cos sin rotateScale movingScale 'j' st) = st := by
  obtain ⟨seen, ⟨x, y, z⟩, yaw, pitch, roll⟩ := st
  refine ⟨?_, ?_, ?_, ?_, ?_, ?_⟩ <;> simp [keySwitch, loopAccumulate]

/-! ## Lemmas on the model-view matrix -/

theorem ToEigen_ofEigen {Tp : Type} (mat : Matrix (Fin 4) (Fin 4) Tp) :
    ToEigen (OpenGlMatrix.ofEigen mat) = mat := by
  ext r c
  fin_cases r <;> fin_cases c <;> rfl

theorem ofEigen_ToEigen {Tp : Type} (M : OpenGlMatrix Tp) :
    OpenGlMatrix.ofEigen (ToEigen M) = M := by
  cases M with
  | mk m =>
    simp only [OpenGlMatrix.ofEigen, ToEigen, OpenGlMatrix.mk.injEq]
    funext k
    fin_cases k <;> rfl

theorem writeBackLoop_eq {Tp : Type} (camMatrix : Matrix (Fin 4) (Fin 4) Tp)
    (newModelView : OpenGlMatrix Tp) :
    writeBackLoop camMatrix newModelView = OpenGlMatrix.ofEigen camMatrix := by
  have hrange : List.finRange 4 = [0, 1, 2, 3] := by decide
  simp only [writeBackLoop, hrange, List.foldl_cons, List.foldl_nil, OpenGlMatrix.ofEigen,
    OpenGlMatrix.mk.injEq]
  funext k
  fin_cases k <;> rfl

theorem setTopLeftBlock_yaw {Tp : Type} [Ring Tp] (c s : Tp) :
    setTopLeftBlock (1 : Matrix (Fin 4) (Fin 4) Tp) !![c, 0, s; 0, 1, 0; -s, 0, c]
      = rotationY c s := by
  ext i j
  fin_cases i <;> fin_cases j <;> rfl

theorem setTopLeftBlock_pitch {Tp : Type} [Ring Tp] (c s : Tp) :
    setTopLeftBlock (1 : Matrix (Fin 4) (Fin 4) Tp) !![1, 0, 0; 0, c, -s; 0, s, c]
      = rotationX c s := by
  ext i j
  fin_cases i <;> fin_cases j <;> rfl

theorem applyYaw_eq {Tp : Type} [Field Tp] (cos sin : Tp → Tp) (M_PI : Tp)
    (newModelView : OpenGlMatrix Tp) (s_cam : OpenGlRenderState Tp) (value : Tp) :
    applyYawRotationToModelCam cos sin M_PI newModelView s_cam value
      = { modelview := OpenGlMatrix.ofEigen
            (rotationY (cos (value * (M_PI / 180))) (sin (value * (M_PI / 180)))
              * ToEigen s_cam.modelview)
          projection := s_cam.projection } := by
  simp only [applyYawRotationToModelCam, setTopLeftBlock_yaw, writeBackLoop_eq]

theorem applyPitch_eq {Tp : Type} [Field Tp] (cos sin : Tp → Tp) (M_PI : Tp)
    (newModelView : OpenGlMatrix Tp) (s_cam : OpenGlRenderState Tp) (value : Tp) :
    applyPitchRotationToModelCam cos sin M_PI newModelView s_cam value
      = { modelview := OpenGlMatrix.ofEigen
            (rotationX (cos (value * (M_PI / 180))) (sin (value * (M_PI / 180)))
              * ToEigen s_cam.modelview)
          projection := s_cam.projection } := by
  simp only [applyPitchRotationToModelCam, setTopLeftBlock_pitch, writeBackLoop_eq]

theorem rotationY_mul {Tp : Type} [CommRing Tp] (c₁ s₁ c₂ s₂ : Tp) :
    rotationY c₁ s₁ * rotationY c₂ s₂
      = rotationY (c₂ * c₁ - s₂ * s₁) (s₂ * c₁ + c₂ * s₁) := by
  ext i j
  fin_cases i <;> fin_cases j <;>
    simp [rotationY, Matrix.mul_apply, Fin.sum_univ_four] <;> ring

theorem rotationY_one {Tp : Type} [Ring Tp] : rotationY (1 : Tp) 0 = 1 := by
  ext i j
  fin_cases i <;> fin_cases j <;> first
    | rfl
    | exact neg_zero

/-! ## The rotation helpers -/

/-- C15: `applyYawRotationToModelCam(value)` replaces the model-view matrix `M` by `R * M`,
`R` being the homogeneous rotation about the Y axis with `c` and `s` the cosine and sine of
`value * (M_PI / 180)`: rows 0 and 2 become `c * row0 + s * row2` and
`-s * row0 + c * row2`, rows 1 and 3 stay, and the loops store entry `(i, j)` of `R * M`
under index `j * 4 + i`, whatever `newModelView` held before. The projection matrix is
not touched. -/
theorem applyYaw_is_rotation_about_Y {Tp : Type} [Field Tp] (cos sin : Tp → Tp) (M_PI : Tp)
    (newModelView : OpenGlMatrix Tp) (s_cam : OpenGlRenderState Tp) (value : Tp) :
    ToEigen (applyYawRotationToModelCam cos sin M_PI newModelView s_cam value).modelview
        = rotationY (cos (value * (M_PI / 180))) (sin (value * (M_PI / 180)))
          * ToEigen s_cam.modelview ∧
      (∀ j : Fin 4,
        ToEigen (applyYawRotationToModelCam cos sin M_PI newModelView s_cam value).modelview 0 j
            = cos (value * (M_PI / 180)) * ToEigen s_cam.modelview 0 j
              + sin (value * (M_PI / 180)) * ToEigen s_cam.modelview 2 j ∧
          ToEigen (applyYawRotationToModelCam cos sin M_PI newModelView s_cam value).modelview 1 j
            = ToEigen s_cam.modelview 1 j ∧
          ToEigen (applyYawRotationToModelCam cos sin M_PI newModelView s_cam value).modelview 2 j
            = -sin (value * (M_PI / 180)) * ToEigen s_cam.modelview 0 j
              + cos (value * (M_PI / 180)) * ToEigen s_cam.modelview 2 j ∧
          ToEigen (applyYawRotationToModelCam cos sin M_PI newModelView s_cam value).modelview 3 j
            = ToEigen s_cam.modelview 3 j) ∧
      (∀ i j : Fin 4,
        (applyYawRotationToModelCam cos sin M_PI newModelView s_cam value).modelview.m
            (OpenGlMatrix.index i j)
          = (rotationY (cos (value * (M_PI / 180))) (sin (value * (M_PI / 180)))
              * ToEigen s_cam.modelview) i j) ∧
      (applyYawRotationToModelCam cos sin M_PI newModelView s_cam value).projection
        = s_cam.projection := by
  have hM : ToEigen
      (applyYawRotationToModelCam cos sin M_PI newModelView s_cam value).modelview
      = rotationY (cos (value * (M_PI / 180))) (sin (value * (M_PI / 180)))
        * ToEigen s_cam.modelview := by
    rw [applyYaw_eq, ToEigen_ofEigen]
  refine ⟨hM, ?_, ?_, ?_⟩
  · intro j
    rw [hM]
    simp [rotationY, Matrix.mul_apply, Fin.sum_univ_four]
  · intro i j
    rw [← hM]
    rfl
  · rw [applyYaw_eq]

/-- C16: `applyPitchRotationToModelCam(value)` replaces the model-view matrix `M` by
`R * M`, `R` being the homogeneous rotation about the X axis with `c` and `s` the cosine
and sine of `value * (M_PI / 180)`: row 0 (and row 3) of `M` stays and only rows 1 and 2
are mixed, into `c * row1 - s * row2` and `s * row1 + c * row2`. -/
theorem applyPitch_is_rotation_about_X {Tp : Type} [Field Tp] (cos sin : Tp → Tp) (M_PI : Tp)
    (newModelView : OpenGlMatrix Tp) (s_cam : OpenGlRenderState Tp) (value : Tp) :
    ToEigen (applyPitchRotationToModelCam cos sin M_PI newModelView s_cam value).modelview
        = rotationX (cos (value * (M_PI / 180))) (sin (value * (M_PI / 180)))
          * ToEigen s_cam.modelview ∧
      (∀ j : Fin 4,
        ToEigen (applyPitchRotationToModelCam cos sin M_PI newModelView s_cam value).modelview 0 j
            = ToEigen s_cam.modelview 0 j ∧
          ToEigen (applyPitchRotationToModelCam cos sin M_PI newModelView s_cam value).modelview 1 j
            = cos (value * (M_PI / 180)) * ToEigen s_cam.modelview 1 j
              - sin (value * (M_PI / 180)) * ToEigen s_cam.modelview 2 j ∧
          ToEigen (applyPitchRotationToModelCam cos sin M_PI newModelView s_cam value).modelview 2 j
            = sin (value * (M_PI / 180)) * ToEigen s_cam.modelview 1 j
              + cos (value * (M_PI / 180)) * ToEigen s_cam.modelview 2 j ∧
          ToEigen (applyPitchRotationToModelCam cos sin M_PI newModelView s_cam value).modelview 3 j
            = ToEigen s_cam.modelview 3 j) ∧
      (applyPitchRotationToModelCam cos sin M_PI newModelView s_cam value).projection
        = s_cam.projection := by
  have hM : ToEigen
      (applyPitchRotationToModelCam cos sin M_PI newModelView s_cam value).modelview
      = rotationX (cos (value * (M_PI / 180))) (sin (value * (M_PI / 180)))
        * ToEigen s_cam.modelview := by
    rw [applyPitch_eq, ToEigen_ofEigen]
  refine ⟨hM, ?_, ?_⟩
  · intro j
    rw [hM]
    simp [rotationX, Matrix.mul_apply, Fin.sum_univ_four, sub_eq_add_neg]
  · rw [applyPitch_eq]

/-- C17 (counterexample): the identity matrix and the point `(16777217, 2, 3)`, whose
first coordinate has 25 significant binary digits. The cast `(float)` of line 102 rounds
it, and `convert_points` returns `(16777216, 2, 3)`, which is not the first three
components of `T * (x, y, z, 1)`. -/
theorem convert_points_rounds :
    convert_points floatOfInt id 1 floatMulVec [⟨16777217, 2, 3⟩] 1 = [⟨16777216, 2, 3⟩] ∧
      convert_points floatOfInt id 1 floatMulVec [⟨16777217, 2, 3⟩] 1
        ≠ [⟨1 * 16777217 + 0 * 2 + 0 * 3 + 0, 0 * 16777217 + 1 * 2 + 0 * 3 + 0,
            0 * 16777217 + 0 * 2 + 1 * 3 + 0⟩] := by
  decide

/-- C17 (amended): `convert_points` maps the points one to one and in order: the output is
as long as the input and its `i`-th element holds, cast back to `double`, the first three
components of the `float` product of `T` and
`((float) x_i, (float) y_i, (float) z_i, 1.0f)`; the fourth component is not divided by. -/
theorem convert_points_maps_in_order {D F : Type} (toFloat : D → F) (toDouble : F → D)
    (oneF : F) (mulVec4f : Matrix (Fin 4) (Fin 4) F → (Fin 4 → F) → Fin 4 → F)
    (points : List (Point3_ D)) (T : Matrix (Fin 4) (Fin 4) F) :
    (convert_points toFloat toDouble oneF mulVec4f points T).length = points.length ∧
      convert_points toFloat toDouble oneF mulVec4f points T
        = points.map (fun p =>
            { x := toDouble (mulVec4f T ![toFloat p.x, toFloat p.y, toFloat p.z, oneF] 0)
              y := toDouble (mulVec4f T ![toFloat p.x, toFloat p.y, toFloat p.z, oneF] 1)
              z := toDouble (mulVec4f T ![toFloat p.x, toFloat p.y, toFloat p.z, oneF] 2) }) ∧
      ∀ i : Nat,
        (convert_points toFloat toDouble oneF mulVec4f points T)[i]?
          = (points[i]?).map (fun p =>
              { x := toDouble (mulVec4f T ![toFloat p.x, toFloat p.y, toFloat p.z, oneF] 0)
                y := toDouble (mulVec4f T ![toFloat p.x, toFloat p.y, toFloat p.z, oneF] 1)
                z := toDouble
                  (mulVec4f T ![toFloat p.x, toFloat p.y, toFloat p.z, oneF] 2) }) := by
  have hloop : ∀ (rest transformed_points : List (Point3_ D)),
      convert_pointsLoop toFloat toDouble oneF mulVec4f T transformed_points rest
        = transformed_points ++ rest.map (fun p =>
            { x := toDouble (mulVec4f T ![toFloat p.x, toFloat p.y, toFloat p.z, oneF] 0)
              y := toDouble (mulVec4f T ![toFloat p.x, toFloat p.y, toFloat p.z, oneF] 1)
              z := toDouble (mulVec4f T ![toFloat p.x, toFloat p.y, toFloat p.z, oneF] 2) }) := by
    intro rest
    induction rest with
    | nil => intro acc; simp [convert_pointsLoop]
    | cons p rest ih =>
      intro acc
      simp [convert_pointsLoop, ih]
  have hmap := hloop points []
  rw [List.nil_append] at hmap
  refine ⟨?_, hmap, ?_⟩
  · show (convert_pointsLoop toFloat toDouble oneF mulVec4f T [] points).length = points.length
    rw [hmap, List.length_map]
  · intro i
    show (convert_pointsLoop toFloat toDouble oneF mulVec4f T [] points)[i]? = _
    rw [hmap, List.getElem?_map]

/-! ## The translation helpers -/

/-- C18: `applyUpModelCam`, `applyForwardToModelCam` and `applyRightToModelCam` add `value`
to entry `(1, 3)`, `(2, 3)` and `(0, 3)` of the model-view matrix (the entries kept as
`m[13]`, `m[14]` and `m[12]`) and leave the other fifteen entries, and the projection
matrix, as they are. -/
theorem translation_helpers_change_one_entry {Tp : Type} [Add Tp]
    (s_cam : OpenGlRenderState Tp) (value : Tp) :
    (∀ i j : Fin 4, ToEigen (applyUpModelCam s_cam value).modelview i j
        = if i = 1 ∧ j = 3 then ToEigen s_cam.modelview i j + value
          else ToEigen s_cam.modelview i j) ∧
      (∀ i j : Fin 4, ToEigen (applyForwardToModelCam s_cam value).modelview i j
        = if i = 2 ∧ j = 3 then ToEigen s_cam.modelview i j + value
          else ToEigen s_cam.modelview i j) ∧
      (∀ i j : Fin 4, ToEigen (applyRightToModelCam s_cam value).modelview i j
        = if i = 0 ∧ j = 3 then ToEigen s_cam.modelview i j + value
          else ToEigen s_cam.modelview i j) ∧
      (∀ k : Fin 16, (applyUpModelCam s_cam value).modelview.m k
        = if k = 13 then s_cam.modelview.m k + value else s_cam.modelview.m k) ∧
      (∀ k : Fin 16, (applyForwardToModelCam s_cam value).modelview.m k
        = if k = 14 then s_cam.modelview.m k + value else s_cam.modelview.m k) ∧
      (∀ k : Fin 16, (applyRightToModelCam s_cam value).modelview.m k
        = if k = 12 then s_cam.modelview.m k + value else s_cam.modelview.m k) ∧
      (applyUpModelCam s_cam value).projection = s_cam.projection ∧
      (applyForwardToModelCam s_cam value).projection = s_cam.projection ∧
      (applyRightToModelCam s_cam value).projection = s_cam.projection := by
  refine ⟨?_, ?_, ?_, ?_, ?_, ?_, rfl, rfl, rfl⟩
  · intro i j
    simp only [applyUpModelCam, ToEigen_ofEigen]
    rfl
  · intro i j
    simp only [applyForwardToModelCam, ToEigen_ofEigen]
    rfl
  · intro i j
    simp only [applyRightToModelCam, ToEigen_ofEigen]
    rfl
  · intro k
    fin_cases k <;> rfl
  · intro k
    fin_cases k <;> rfl
  · intro k
    fin_cases k <;> rfl

/-! ## Composition of yaw steps -/

/-- C19: over the reals, with the cosine, the sine and π of the reals, a yaw step of `a`
degrees followed by a yaw step of `b` degrees gives the render state that one yaw step of
`a + b` degrees gives; a step of `v` followed by a step of `-v` gives back the render
state it started from. -/
theorem yaw_steps_compose (u₁ u₂ u₃ : OpenGlMatrix ℝ) (s_cam : OpenGlRenderState ℝ)
    (a b v : ℝ) :
    applyYawRotationToModelCam Real.cos Real.sin Real.pi u₂
        (applyYawRotationToModelCam Real.cos Real.sin Real.pi u₁ s_cam a) b
        = applyYawRotationToModelCam Real.cos Real.sin Real.pi u₃ s_cam (a + b) ∧
      applyYawRotationToModelCam Real.cos Real.sin Real.pi u₂
        (applyYawRotationToModelCam Real.cos Real.sin Real.pi u₁ s_cam v) (-v) = s_cam := by
  have key : ∀ x y : ℝ,
      rotationY (Real.cos (y * (Real.pi / 180))) (Real.sin (y * (Real.pi / 180)))
          * rotationY (Real.cos (x * (Real.pi / 180))) (Real.sin (x * (Real.pi / 180)))
        = rotationY (Real.cos ((x + y) * (Real.pi / 180)))
            (Real.sin ((x + y) * (Real.pi / 180))) := by
    intro x y
    rw [rotationY_mul, add_mul, Real.cos_add, Real.sin_add]
  have hcomp : ∀ x y : ℝ,
      applyYawRotationToModelCam Real.cos Real.sin Real.pi u₂
          (applyYawRotationToModelCam Real.cos Real.sin Real.pi u₁ s_cam x) y
        = { modelview := OpenGlMatrix.ofEigen
              (rotationY (Real.cos ((x + y) * (Real.pi / 180)))
                  (Real.sin ((x + y) * (Real.pi / 180))) * ToEigen s_cam.modelview)
            projection := s_cam.projection } := by
    intro x y
    rw [applyYaw_eq, applyYaw_eq]
    simp only [ToEigen_ofEigen]
    rw [← Matrix.mul_assoc, key]
  constructor
  · rw [hcomp, applyYaw_eq]
  · rw [hcomp, add_neg_cancel, zero_mul, Real.cos_zero, Real.sin_zero, rotationY_one,
      Matrix.one_mul, ofEigen_ToEigen]

/-! ## The visibility query of the spec -/

theorem vectorNorm_scenario_five : vectorNorm ⟨0, 0, -5⟩ = 5 := by
  unfold vectorNorm
  rw [show ((0 : ℝ) ^ 2 + 0 ^ 2 + (-5) ^ 2) = 5 ^ 2 by norm_num]
  exact Real.sqrt_sq (by norm_num)

theorem vectorNorm_scenario_one : vectorNorm ⟨0, 0, -1⟩ = 1 := by
  unfold vectorNorm
  rw [show ((0 : ℝ) ^ 2 + 0 ^ 2 + (-1) ^ 2) = 1 ^ 2 by norm_num]
  exact Real.sqrt_sq (by norm_num)

theorem vectorNorm_scenario_fifteen : vectorNorm ⟨0, 0, -15⟩ = 15 := by
  unfold vectorNorm
  rw [show ((0 : ℝ) ^ 2 + 0 ^ 2 + (-15) ^ 2) = 15 ^ 2 by norm_num]
  exact Real.sqrt_sq (by norm_num)

/-- C13: `Query` returns a landmark if and only if it is one of the landmarks and passes
all three tests (positive depth and field of view, Euclidean distance to the camera centre
within `[minDistance, maxDistance]`, angle between the normal and the direction to the
camera below the threshold, a zero normal passing); each landmark is classified on its
own; and for a positive threshold and a field of view that holds the point `(0, 0, 5)` of
the optical axis, `P1` is returned for the camera at the origin that looks down `+Z` and
not for the camera at `(0, 0, 20)`. -/
theorem query_returns_the_visible (inFieldOfView : Point3_ ℝ → Prop) (threshold : ℝ)
    (hthreshold : 0 < threshold) (hview : inFieldOfView ⟨0, 0, 5⟩) :
    (∀ (landmarks : List MapLandmark) (Tcw : Matrix (Fin 4) (Fin 4) ℝ)
        (cameraCenterWorld : Point3_ ℝ) (L : MapLandmark),
        L ∈ Query inFieldOfView threshold landmarks Tcw cameraCenterWorld ↔
          L ∈ landmarks ∧
            (0 < (Project Tcw L.position).z ∧ inFieldOfView (Project Tcw L.position)) ∧
            (L.minDistance ≤ vectorNorm (vectorFromTo cameraCenterWorld L.position) ∧
              vectorNorm (vectorFromTo cameraCenterWorld L.position) ≤ L.maxDistance) ∧
            (vectorNorm L.normal = 0 ∨
              angleBetween L.normal (vectorFromTo L.position cameraCenterWorld)
                < threshold)) ∧
      (∀ (first second : List MapLandmark) (Tcw : Matrix (Fin 4) (Fin 4) ℝ)
        (cameraCenterWorld : Point3_ ℝ),
        Query inFieldOfView threshold (first ++ second) Tcw cameraCenterWorld
          = Query inFieldOfView threshold first Tcw cameraCenterWorld
            ++ Query inFieldOfView threshold second Tcw cameraCenterWorld) ∧
      Query inFieldOfView threshold [scenarioP1] 1 ⟨0, 0, 0⟩ = [scenarioP1] ∧
      Query inFieldOfView threshold [scenarioP1] cameraAtTwenty ⟨0, 0, 20⟩ = [] := by
  refine ⟨?_, ?_, ?_, ?_⟩
  · intro landmarks Tcw cameraCenterWorld L
    simp [Query, List.mem_filter, FrustumTest, DistanceTest, ViewingAngleTest]
  · intro first second Tcw cameraCenterWorld
    simp [Query, List.filter_append]
  · have hproj : Project 1 scenarioP1.position = ⟨0, 0, 5⟩ := by
      simp [Project, scenarioP1]
    have hto : vectorFromTo (⟨0, 0, 0⟩ : Point3_ ℝ) scenarioP1.position = ⟨0, 0, 5⟩ := by
      simp [vectorFromTo, scenarioP1]
    have hfrom : vectorFromTo scenarioP1.position (⟨0, 0, 0⟩ : Point3_ ℝ) = ⟨0, 0, -5⟩ := by
      simp [vectorFromTo, scenarioP1]
    have hnorm : vectorNorm (⟨0, 0, 5⟩ : Point3_ ℝ) = 5 := by
      unfold vectorNorm
      rw [show ((0 : ℝ) ^ 2 + 0 ^ 2 + 5 ^ 2) = 5 ^ 2 by norm_num]
      exact Real.sqrt_sq (by norm_num)
    have hangle : angleBetween scenarioP1.normal (⟨0, 0, -5⟩ : Point3_ ℝ) = 0 := by
      unfold angleBetween
      rw [show scenarioP1.normal = ⟨0, 0, -1⟩ from rfl, vectorNorm_scenario_one,
        vectorNorm_scenario_five]
      norm_num
    have hvisible : FrustumTest inFieldOfView 1 scenarioP1 ∧
        DistanceTest ⟨0, 0, 0⟩ scenarioP1 ∧ ViewingAngleTest threshold ⟨0, 0, 0⟩ scenarioP1 := by
      refine ⟨⟨?_, ?_⟩, ⟨?_, ?_⟩, Or.inr ?_⟩
      · rw [hproj]
        norm_num
      · rw [hproj]
        exact hview
      · rw [hto, hnorm]
        norm_num [scenarioP1]
      · rw [hto, hnorm]
        norm_num [scenarioP1]
      · rw [hfrom, hangle]
        exact hthreshold
    simp [Query, hvisible]
  · have hto : vectorFromTo (⟨0, 0, 20⟩ : Point3_ ℝ) scenarioP1.position = ⟨0, 0, -15⟩ := by
      simp [vectorFromTo, scenarioP1]
      norm_num
    have hfar : ¬ DistanceTest ⟨0, 0, 20⟩ scenarioP1 := by
      intro h
      have h2 := h.2
      rw [hto, vectorNorm_scenario_fifteen] at h2
      norm_num [scenarioP1] at h2
    simp [Query, hfar]

theorem query_returns_the_visible_witness :
    (∀ (landmarks : List MapLandmark) (Tcw : Matrix (Fin 4) (Fin 4) ℝ)
        (cameraCenterWorld : Point3_ ℝ) (L : MapLandmark),
        L ∈ Query (fun _ => True) (Real.pi / 2) landmarks Tcw cameraCenterWorld ↔
          L ∈ landmarks ∧
            (0 < (Project Tcw L.position).z ∧ (fun _ => True) (Project Tcw L.position)) ∧
            (L.minDistance ≤ vectorNorm (vectorFromTo cameraCenterWorld L.position) ∧
              vectorNorm (vectorFromTo cameraCenterWorld L.position) ≤ L.maxDistance) ∧
            (vectorNorm L.normal = 0 ∨
              angleBetween L.normal (vectorFromTo L.position cameraCenterWorld)
                < Real.pi / 2)) ∧
      (∀ (first second : List MapLandmark) (Tcw : Matrix (Fin 4) (Fin 4) ℝ)
        (cameraCenterWorld : Point3_ ℝ),
        Query (fun _ => True) (Real.pi / 2) (first ++ second) Tcw cameraCenterWorld
          = Query (fun _ => True) (Real.pi / 2) first Tcw cameraCenterWorld
            ++ Query (fun _ => True) (Real.pi / 2) second Tcw cameraCenterWorld) ∧
      Query (fun _ => True) (Real.pi / 2) [scenarioP1] 1 ⟨0, 0, 0⟩ = [scenarioP1] ∧
      Query (fun _ => True) (Real.pi / 2) [scenarioP1] cameraAtTwenty ⟨0, 0, 20⟩ = [] :=
  query_returns_the_visible (fun _ => True) (Real.pi / 2) Real.pi_div_two_pos trivial

/-! ## Lemmas on `read_matrix_4d_from_csv` -/

theorem four_of_numeric {α Tp : Type} (stod : α → Option Tp) (cells : List α)
    (h : ∀ c : Nat, c < 4 → ((cells[c]?).bind stod).isSome = true) :
    ∃ (c₀ c₁ c₂ c₃ : α) (extra : List α) (v₀ v₁ v₂ v₃ : Tp),
      cells = c₀ :: c₁ :: c₂ :: c₃ :: extra ∧
      stod c₀ = some v₀ ∧ stod c₁ = some v₁ ∧ stod c₂ = some v₂ ∧ stod c₃ = some v₃ := by
  rcases cells with _ | ⟨c₀, _ | ⟨c₁, _ | ⟨c₂, _ | ⟨c₃, extra⟩⟩⟩⟩
  · exact absurd (h 0 (by omega)) (by simp)
  · exact absurd (h 1 (by omega)) (by simp)
  · exact absurd (h 2 (by omega)) (by simp)
  · exact absurd (h 3 (by omega)) (by simp)
  · obtain ⟨v₀, hv₀⟩ := Option.isSome_iff_exists.1 (by simpa using h 0 (by omega))
    obtain ⟨v₁, hv₁⟩ := Option.isSome_iff_exists.1 (by simpa using h 1 (by omega))
    obtain ⟨v₂, hv₂⟩ := Option.isSome_iff_exists.1 (by simpa using h 2 (by omega))
    obtain ⟨v₃, hv₃⟩ := Option.isSome_iff_exists.1 (by simpa using h 3 (by omega))
    exact ⟨c₀, c₁, c₂, c₃, extra, v₀, v₁, v₂, v₃, rfl, hv₀, hv₁, hv₂, hv₃⟩

theorem cellLoop_four {Tp : Type} (stod : List Char → Option Tp) (row : Nat)
    (c₀ c₁ c₂ c₃ : List Char) (extra : List (List Char)) (v₀ v₁ v₂ v₃ : Tp) (run : ReadRun Tp)
    (h₀ : stod c₀ = some v₀) (h₁ : stod c₁ = some v₁) (h₂ : stod c₂ = some v₂)
    (h₃ : stod c₃ = some v₃) :
    cellLoop stod row 0 (c₀ :: c₁ :: c₂ :: c₃ :: extra) run
      = { matrix := writeEntry (writeEntry (writeEntry (writeEntry run.matrix ⟨row, 0, v₀⟩)
            ⟨row, 1, v₁⟩) ⟨row, 2, v₂⟩) ⟨row, 3, v₃⟩
          writes := run.writes ++ [⟨row, 0, v₀⟩, ⟨row, 1, v₁⟩, ⟨row, 2, v₂⟩, ⟨row, 3, v₃⟩]
          thrown := run.thrown } := by
  cases extra <;> simp [cellLoop, h₀, h₁, h₂, h₃]

theorem cellLoop_writes_in_range {Tp : Type} (stod : List Char → Option Tp) (row : Nat)
    (hrow : row < 4) (cells : List (List Char)) (col : Nat) (run : ReadRun Tp)
    (hrun : ∀ w ∈ run.writes, w.row < 4 ∧ w.col < 4) :
    ∀ w ∈ (cellLoop stod row col cells run).writes, w.row < 4 ∧ w.col < 4 := by
  induction cells generalizing col run with
  | nil => simpa [cellLoop] using hrun
  | cons cell later ih =>
    by_cases hcol : col < 4
    · cases hs : stod cell with
      | none => simpa [cellLoop, hcol, hs] using hrun
      | some value =>
        simp only [cellLoop, hcol, hs, if_true]
        apply ih
        intro w hw
        rcases List.mem_append.1 hw with h | h
        · exact hrun w h
        · have hw' : w = ⟨row, col, value⟩ := by simpa using h
          subst hw'
          exact ⟨hrow, hcol⟩
    · simpa [cellLoop, hcol] using hrun

theorem lineLoop_writes_in_range {Tp : Type} (stod : List Char → Option Tp)
    (lines : List (List Char)) (row : Nat) (run : ReadRun Tp)
    (hrun : ∀ w ∈ run.writes, w.row < 4 ∧ w.col < 4) :
    ∀ w ∈ (lineLoop stod row lines run).writes, w.row < 4 ∧ w.col < 4 := by
  induction lines generalizing row run with
  | nil => simpa [lineLoop] using hrun
  | cons line later ih =>
    by_cases hrow : row < 4
    · have hcells := cellLoop_writes_in_range stod row hrow (getlines cellSeparator line) 0
        run hrun
      simp only [lineLoop, hrow, if_true]
      split
      · exact hcells
      · exact ih _ _ hcells
    · simpa [lineLoop, hrow] using hrun

theorem lineLoop_done {Tp : Type} (stod : List Char → Option Tp) (lines : List (List Char))
    (run : ReadRun Tp) : lineLoop stod 4 lines run = run := by
  cases lines <;> simp [lineLoop]

theorem lineLoop_step {Tp : Type} (stod : List Char → Option Tp) (row : Nat) (hrow : row < 4)
    (line : List Char) (later : List (List Char)) (run : ReadRun Tp)
    (hthrown : (cellLoop stod row 0 (getlines cellSeparator line) run).thrown = false) :
    lineLoop stod row (line :: later) run
      = lineLoop stod (row + 1) later (cellLoop stod row 0 (getlines cellSeparator line) run) := by
  simp [lineLoop, hrow, hthrown]

/-! ## The top-left block read by `read_matrix_4d_from_csv` -/

/-- C23: when each of the first four lines of the file holds at least four cells that
`std::stod` accepts, `read_matrix_4d_from_csv` returns (no exception) the matrix whose
entry `(r, c)` is the number of cell `c` of line `r`, for `r` and `c` from 0 to 3,
whatever else the file holds; it makes exactly the sixteen assignments `(0, 0)` to
`(3, 3)`, row after row; and on any file at all, readable or not, no assignment it makes
has an index beyond 3. -/
theorem read_matrix_reads_top_left_block {Tp : Type} (stod : List Char → Option Tp)
    (matrix : Matrix (Fin 4) (Fin 4) Tp) (text : List Char)
    (hnumeric : ∀ r c : Fin 4, ((cellAt text r.val c.val).bind stod).isSome = true) :
    (read_matrix_4d_from_csv stod matrix (some text)).thrown = false ∧
      (∀ r c : Fin 4,
        some ((read_matrix_4d_from_csv stod matrix (some text)).matrix r c)
          = (cellAt text r.val c.val).bind stod) ∧
      (read_matrix_4d_from_csv stod matrix (some text)).writes.map (fun w => (w.row, w.col))
        = [(0, 0), (0, 1), (0, 2), (0, 3), (1, 0), (1, 1), (1, 2), (1, 3),
            (2, 0), (2, 1), (2, 2), (2, 3), (3, 0), (3, 1), (3, 2), (3, 3)] ∧
      ∀ (csv_file : Option (List Char)),
        ∀ w ∈ (read_matrix_4d_from_csv stod matrix csv_file).writes, w.row < 4 ∧ w.col < 4 := by
  have hN : ∀ r c : Nat, r < 4 → c < 4 → ((cellAt text r c).bind stod).isSome = true :=
    fun r c hr hc => hnumeric ⟨r, hr⟩ ⟨c, hc⟩
  obtain ⟨l₀, l₁, l₂, l₃, extraLines, _, _, _, _, hlines, -, -, -, -⟩ :=
    four_of_numeric (fun line => ((getlines cellSeparator line)[0]?).bind stod)
      (getlines lineFeed text) (by
        intro r hr
        have h := hN r 0 hr (by omega)
        simpa [cellAt, Option.bind_assoc] using h)
  obtain ⟨a₀, a₁, a₂, a₃, extra₀, x₀, x₁, x₂, x₃, hrow₀, ha₀, ha₁, ha₂, ha₃⟩ :=
    four_of_numeric stod (getlines cellSeparator l₀) (by
      intro c hc
      have h := hN 0 c (by omega) hc
      simpa [cellAt, hlines] using h)
  obtain ⟨b₀, b₁, b₂, b₃, extra₁, y₀, y₁, y₂, y₃, hrow₁, hb₀, hb₁, hb₂, hb₃⟩ :=
    four_of_numeric stod (getlines cellSeparator l₁) (by
      intro c hc
      have h := hN 1 c (by omega) hc
      simpa [cellAt, hlines] using h)
  obtain ⟨d₀, d₁, d₂, d₃, extra₂, z₀, z₁, z₂, z₃, hrow₂, hd₀, hd₁, hd₂, hd₃⟩ :=
    four_of_numeric stod (getlines cellSeparator l₂) (by
      intro c hc
      have h := hN 2 c (by omega) hc
      simpa [cellAt, hlines] using h)
  obtain ⟨e₀, e₁, e₂, e₃, extra₃, t₀, t₁, t₂, t₃, hrow₃, he₀, he₁, he₂, he₃⟩ :=
    four_of_numeric stod (getlines cellSeparator l₃) (by
      intro c hc
      have h := hN 3 c (by omega) hc
      simpa [cellAt, hlines] using h)
  have hres : read_matrix_4d_from_csv stod matrix (some text)
      = cellLoop stod 3 0 (getlines cellSeparator l₃)
          (cellLoop stod 2 0 (getlines cellSeparator l₂)
            (cellLoop stod 1 0 (getlines cellSeparator l₁)
              (cellLoop stod 0 0 (getlines cellSeparator l₀)
                { matrix := matrix, writes := [], thrown := false }))) := by
    simp only [read_matrix_4d_from_csv, hlines]
    rw [lineLoop_step stod 0 (by omega) _ _ _ (by
        rw [hrow₀, cellLoop_four stod 0 _ _ _ _ _ _ _ _ _ _ ha₀ ha₁ ha₂ ha₃]),
      lineLoop_step stod 1 (by omega) _ _ _ (by
        rw [hrow₁, cellLoop_four stod 1 _ _ _ _ _ _ _ _ _ _ hb₀ hb₁ hb₂ hb₃,
          hrow₀, cellLoop_four stod 0 _ _ _ _ _ _ _ _ _ _ ha₀ ha₁ ha₂ ha₃]),
      lineLoop_step stod 2 (by omega) _ _ _ (by
        rw [hrow₂, cellLoop_four stod 2 _ _ _ _ _ _ _ _ _ _ hd₀ hd₁ hd₂ hd₃,
          hrow₁, cellLoop_four stod 1 _ _ _ _ _ _ _ _ _ _ hb₀ hb₁ hb₂ hb₃,
          hrow₀, cellLoop_four stod 0 _ _ _ _ _ _ _ _ _ _ ha₀ ha₁ ha₂ ha₃]),
      lineLoop_step stod 3 (by omega) _ _ _ (by
        rw [hrow₃, cellLoop_four stod 3 _ _ _ _ _ _ _ _ _ _ he₀ he₁ he₂ he₃,
          hrow₂, cellLoop_four stod 2 _ _ _ _ _ _ _ _ _ _ hd₀ hd₁ hd₂ hd₃,
          hrow₁, cellLoop_four stod 1 _ _ _ _ _ _ _ _ _ _ hb₀ hb₁ hb₂ hb₃,
          hrow₀, cellLoop_four stod 0 _ _ _ _ _ _ _ _ _ _ ha₀ ha₁ ha₂ ha₃]),
      lineLoop_done]
  rw [hrow₀, hrow₁, hrow₂, hrow₃,
    cellLoop_four stod 0 _ _ _ _ _ _ _ _ _ _ ha₀ ha₁ ha₂ ha₃,
    cellLoop_four stod 1 _ _ _ _ _ _ _ _ _ _ hb₀ hb₁ hb₂ hb₃,
    cellLoop_four stod 2 _ _ _ _ _ _ _ _ _ _ hd₀ hd₁ hd₂ hd₃,
    cellLoop_four stod 3 _ _ _ _ _ _ _ _ _ _ he₀ he₁ he₂ he₃] at hres
  refine ⟨by rw [hres], ?_, by rw [hres]; rfl, ?_⟩
  · have h3 : ((3 : Fin 4) : ℕ) = 3 := rfl
    rintro ⟨r, hr⟩ ⟨c, hc⟩
    rw [hres]
    interval_cases r <;> interval_cases c <;>
      simp [cellAt, hlines, hrow₀, hrow₁, hrow₂, hrow₃, writeEntry, ha₀, ha₁, ha₂, ha₃,
        hb₀, hb₁, hb₂, hb₃, hd₀, hd₁, hd₂, hd₃, he₀, he₁, he₂, he₃, h3]
  · intro csv_file
    cases csv_file with
    | none => simp [read_matrix_4d_from_csv]
    | some text' =>
      exact lineLoop_writes_in_range stod (getlines lineFeed text') 0 _ (by simp)

theorem read_matrix_reads_top_left_block_witness :
    (read_matrix_4d_from_csv stodDigits (fun _ _ => 0) (some fiveLineFile)).thrown = false ∧
      (∀ r c : Fin 4,
        some ((read_matrix_4d_from_csv stodDigits (fun _ _ => 0) (some fiveLineFile)).matrix r c)
          = (cellAt fiveLineFile r.val c.val).bind stodDigits) ∧
      (read_matrix_4d_from_csv stodDigits (fun _ _ => 0) (some fiveLineFile)).writes.map
          (fun w => (w.row, w.col))
        = [(0, 0), (0, 1), (0, 2), (0, 3), (1, 0), (1, 1), (1, 2), (1, 3),
            (2, 0), (2, 1), (2, 2), (2, 3), (3, 0), (3, 1), (3, 2), (3, 3)] ∧
      ∀ (csv_file : Option (List Char)),
        ∀ w ∈ (read_matrix_4d_from_csv stodDigits (fun _ _ => 0) csv_file).writes,
          w.row < 4 ∧ w.col < 4 :=
  read_matrix_reads_top_left_block stodDigits (fun _ _ => 0) fiveLineFile (by decide)

/-! ## The length of a move -/

theorem vectorNorm_of_sq (v : Point3_ ℝ) (m : ℝ) (h : v.x ^ 2 + v.y ^ 2 + v.z ^ 2 = m ^ 2) :
    vectorNorm v = |m| := by
  unfold vectorNorm
  rw [h]
  exact Real.sqrt_sq_eq_abs m

/-- C21: over the reals, with the cosine and sine of the reals, one press of `i`, `k`, `j`
or `l` moves `current_position` by a vector of Euclidean length `|movingScale|`, whatever
the position, yaw, pitch and `movingScale`. -/
theorem move_keys_displace_by_movingScale (rotateScale movingScale : ℝ) (st : SimState ℝ) :
    vectorNorm (vectorFromTo st.current_position
        (keySwitch Real.cos Real.sin rotateScale movingScale 'i' st).current_position)
        = |movingScale| ∧
      vectorNorm (vectorFromTo st.current_position
        (keySwitch Real.cos Real.sin rotateScale movingScale 'k' st).current_position)
        = |movingScale| ∧
      vectorNorm (vectorFromTo st.current_position
        (keySwitch Real.cos Real.sin rotateScale movingScale 'j' st).current_position)
        = |movingScale| ∧
      vectorNorm (vectorFromTo st.current_position
        (keySwitch Real.cos Real.sin rotateScale movingScale 'l' st).current_position)
        = |movingScale| := by
  obtain ⟨seen, ⟨x, y, z⟩, yaw, pitch, roll⟩ := st
  have hp := Real.sin_sq_add_cos_sq pitch
  have hy := Real.sin_sq_add_cos_sq yaw
  have hforward : (movingScale * Real.cos pitch * Real.sin yaw) ^ 2
      + (movingScale * Real.cos pitch * Real.cos yaw) ^ 2
      + (movingScale * Real.sin pitch) ^ 2 = movingScale ^ 2 := by
    calc (movingScale * Real.cos pitch * Real.sin yaw) ^ 2
          + (movingScale * Real.cos pitch * Real.cos yaw) ^ 2
          + (movingScale * Real.sin pitch) ^ 2
        = movingScale ^ 2 * (Real.cos pitch ^ 2 * (Real.sin yaw ^ 2 + Real.cos yaw ^ 2)
            + Real.sin pitch ^ 2) := by ring
      _ = movingScale ^ 2 * (Real.sin pitch ^ 2 + Real.cos pitch ^ 2) := by
          rw [hy]
          ring
      _ = movingScale ^ 2 := by rw [hp, mul_one]
  have hside : (movingScale * Real.cos yaw) ^ 2 + (movingScale * Real.sin yaw) ^ 2
      + (0 : ℝ) ^ 2 = movingScale ^ 2 := by
    calc (movingScale * Real.cos yaw) ^ 2 + (movingScale * Real.sin yaw) ^ 2 + (0 : ℝ) ^ 2
        = movingScale ^ 2 * (Real.sin yaw ^ 2 + Real.cos yaw ^ 2) := by ring
      _ = movingScale ^ 2 := by rw [hy, mul_one]
  refine ⟨?_, ?_, ?_, ?_⟩
  · apply vectorNorm_of_sq
    simp only [keySwitch, vectorFromTo]
    simp
    linarith [hforward]
  · apply vectorNorm_of_sq
    simp only [keySwitch, vectorFromTo]
    simp
    linarith [hforward]
  · apply vectorNorm_of_sq
    simp only [keySwitch, vectorFromTo]
    simp
    linarith [hside]
  · apply vectorNorm_of_sq
    simp only [keySwitch, vectorFromTo]
    simp
    linarith [hside]

/-! ## What a key changes -/

/-- C22: the `switch` changes only what the key names: `a` and `d` change `current_yaw`
alone, by `- rotateScale` and `+ rotateScale`; `w` and `s` change `current_pitch` alone, by
`+ rotateScale` and `- rotateScale`; `i`, `k`, `j` and `l` change `current_position` alone;
no key changes `current_roll` (nor `points_seen`); and any other character leaves the
whole state as it is. -/
theorem keys_change_what_they_name {Tp : Type} [Ring Tp] (cos sin : Tp → Tp)
    (rotateScale movingScale : Tp) (st : SimState Tp) :
    keySwitch cos sin rotateScale movingScale 'a' st
        = { st with current_yaw := st.current_yaw - rotateScale } ∧
      keySwitch cos sin rotateScale movingScale 'd' st
        = { st with current_yaw := st.current_yaw + rotateScale } ∧
      keySwitch cos sin rotateScale movingScale 'w' st
        = { st with current_pitch := st.current_pitch + rotateScale } ∧
      keySwitch cos sin rotateScale movingScale 's' st
        = { st with current_pitch := st.current_pitch - rotateScale } ∧
      (∀ ch : Char, ch = 'i' ∨ ch = 'k' ∨ ch = 'j' ∨ ch = 'l' →
        keySwitch cos sin rotateScale movingScale ch st
          = { st with current_position :=
                (keySwitch cos sin rotateScale movingScale ch st).current_position }) ∧
      (∀ ch : Char,
        (keySwitch cos sin rotateScale movingScale ch st).current_roll = st.current_roll ∧
          (keySwitch cos sin rotateScale movingScale ch st).points_seen = st.points_seen) ∧
      (∀ ch : Char, ch ≠ 'a' → ch ≠ 'd' → ch ≠ 'w' → ch ≠ 's' → ch ≠ 'i' → ch ≠ 'k' →
        ch ≠ 'j' → ch ≠ 'l' → keySwitch cos sin rotateScale movingScale ch st = st) := by
  refine ⟨?_, ?_, ?_, ?_, ?_, ?_, ?_⟩
  · simp [keySwitch]
  · simp [keySwitch]
  · simp [keySwitch]
  · simp [keySwitch]
  · intro ch hch
    rcases hch with h | h | h | h <;> subst h <;> simp [keySwitch]
  · intro ch
    unfold keySwitch
    split_ifs <;> exact ⟨rfl, rfl⟩
  · intro ch ha hd hw hs hi hk hj hl
    simp [keySwitch, ha, hd, hw, hs, hi, hk, hj, hl]

/-! ## `inverseTransformPoint` -/

theorem mul_inverse {Tp : Type} [Field Tp] (T : Matrix (Fin 4) (Fin 4) Tp) (hT : IsUnit T) :
    T * inverse T = 1 ∧ inverse T * T = 1 := by
  have hdet : T.det ≠ 0 := ((Matrix.isUnit_iff_isUnit_det T).1 hT).ne_zero
  constructor
  · rw [inverse, Matrix.mul_smul, Matrix.mul_adjugate, smul_smul, inv_mul_cancel₀ hdet,
      one_smul]
  · rw [inverse, Matrix.smul_mul, Matrix.adjugate_mul, smul_smul, inv_mul_cancel₀ hdet,
      one_smul]

theorem cameraAtTwenty_isUnit : IsUnit cameraAtTwenty := by
  refine ⟨⟨cameraAtTwenty, !![1, 0, 0, 0; 0, 1, 0, 0; 0, 0, 1, 20; 0, 0, 0, 1], ?_, ?_⟩, rfl⟩
  · ext i j
    fin_cases i <;> fin_cases j <;>
      simp [cameraAtTwenty, Matrix.mul_apply, Fin.sum_univ_four, Matrix.vecHead, Matrix.vecTail]
  · ext i j
    fin_cases i <;> fin_cases j <;>
      simp [cameraAtTwenty, Matrix.mul_apply, Fin.sum_univ_four, Matrix.vecHead, Matrix.vecTail]

/-- C24: for an invertible 4x4 matrix `T` over a field (the reals among them) and a
homogeneous point `p`, `inverseTransformPoint` undoes `T`: `T` applied to
`inverseTransformPoint(p, T)` is `p`, and `inverseTransformPoint(T * p, T)` is `p`. -/
theorem inverseTransformPoint_undoes {Tp : Type} [Field Tp] (T : Matrix (Fin 4) (Fin 4) Tp)
    (p : Fin 4 → Tp) (hT : IsUnit T) :
    T.mulVec (inverseTransformPoint p T) = p ∧
      inverseTransformPoint (T.mulVec p) T = p := by
  obtain ⟨h₁, h₂⟩ := mul_inverse T hT
  constructor
  · simp only [inverseTransformPoint]
    rw [Matrix.mulVec_mulVec, h₁, Matrix.one_mulVec]
  · simp only [inverseTransformPoint]
    rw [Matrix.mulVec_mulVec, h₂, Matrix.one_mulVec]

theorem inverseTransformPoint_undoes_witness :
    cameraAtTwenty.mulVec (inverseTransformPoint ![0, 0, 5, 1] cameraAtTwenty) = ![0, 0, 5, 1] ∧
      inverseTransformPoint (cameraAtTwenty.mulVec ![0, 0, 5, 1]) cameraAtTwenty
        = ![0, 0, 5, 1] :=
  inverseTransformPoint_undoes cameraAtTwenty ![0, 0, 5, 1] cameraAtTwenty_isUnit

end SimulatorMapping
